import Mathlib

/-!
# glusterblock-provisioner: a shallow embedding of `glusterblock-provisioner.go`

Modelling conventions.

* A Go `map[string]string` that is only looked up is an association list read
  with `List.lookup`.  A Go map that is ranged over is the list of its entries
  in the order in which the `range` loop visits them; Go leaves that order
  unspecified, so a statement quantified over every list covers every
  iteration order.  A well-formed map has pairwise distinct keys.
* A Go `(value, error)` result is an `Except Error value`; a lone `error` result
  is an `Option Error` with `none` for `nil`.
* Go strings are modelled by Lean strings (sequences of Unicode scalar values),
  `[]byte` payloads of secrets likewise.
* `int` is the 64-bit Go `int`.
-/

namespace GlusterBlock

/-! ## Errors -/

/-- Errors built in `glusterblock-provisioner.go`, one constructor for each
construction site, carrying the arguments that are formatted into the message. -/
inductive Error where
  /-- `errors.New("identity annotation not found on PV")` -/
  | identityAnnotationNotFound
  /-- `&controller.IgnoredError{msg}` -/
  | ignored (msg : String)
  /-- `fmt.Errorf("claim Selector is not supported")` -/
  | selectorNotSupported
  /-- `fmt.Errorf("glusterblock: failed to parse hacount %v ", k)` -/
  | failedParseHacount (k : String)
  /-- `fmt.Errorf("glusterblock: invalid option %q for volume plugin %s", k, plugin)` -/
  | invalidOption (k : String) (plugin : String)
  /-- `fmt.Errorf("StorageClass for provisioner %s must contain 'resturl' parameter", p)` -/
  | missingResturl (p : String)
  /-- `fmt.Errorf("StorageClass for provisioner %q must have secretNamespace and secretName either both set or both empty", p)` -/
  | secretRefInconsistent (p : String)
  /-- `fmt.Errorf("failed to get secret %s/%s: %v", namespace, secretName, err)` -/
  | failedGetSecret (secretNamespace secretName : String) (cause : Error)
  /-- `fmt.Errorf("empty secret map")` -/
  | emptySecretMap
  /-- `fmt.Errorf("Cannot get kube client")` -/
  | cannotGetKubeClient
  /-- `fmt.Errorf("Cannot get secret of type %s", volumePluginName)` -/
  | cannotGetSecretOfType (volumePluginName : String)
  /-- An error produced by the secret store itself (`Secrets(ns).Get`). -/
  | store (msg : String)
  deriving DecidableEq, Repr

/-- Whether the error has the dynamic type `*controller.IgnoredError`. -/
def Error.isIgnored : Error → Bool
  | .ignored _ => true
  | _ => false

/-! ## Constants -/

def provisionerName : String := "gluster.org/glusterblock"
def provisionerMode : String := "script"
def secretKeyName : String := "key"

/-! ## Data model -/

/-- Go struct `provisionerConfig`; the default of each field is its Go zero value. -/
structure provisionerConfig where
  url : String := ""
  user : String := ""
  userKey : String := ""
  opMode : String := ""
  scriptPath : String := ""
  secretNamespace : String := ""
  secretName : String := ""
  secretValue : String := ""
  clusterId : String := ""
  haCount : Int := 0
  deriving DecidableEq, Repr

/-- The part of `v1.Secret` that the program reads. -/
structure Secret where
  type : String
  Data : List (String × String)
  deriving DecidableEq, Repr

/-- The part of `kubernetes.Interface` that the program uses:
`Core().Secrets(namespace).Get(name, ...)`. -/
structure Client where
  getSecret : String → String → Except Error Secret

/-- Go struct `glusterBlockProvisioner`; a nil `client` is `none`. -/
structure glusterBlockProvisioner where
  client : Option Client
  identity : String
  provConfig : provisionerConfig := {}

/-- `v1.ISCSIVolumeSource`, the fields set by `Provision`. -/
structure ISCSIVolumeSource where
  TargetPortal : String
  IQN : String
  Lun : Int
  FSType : String
  ReadOnly : Bool
  deriving DecidableEq, Repr

/-- `v1.PersistentVolume`, the fields read or written by the program.
`Quantity` stands for the resource quantity type, `Mode` for the access mode
type and `Policy` for the reclaim policy type. -/
structure PersistentVolume (Quantity Mode Policy : Type) where
  Name : String
  Annotations : List (String × String)
  PersistentVolumeReclaimPolicy : Policy
  AccessModes : List Mode
  Capacity : List (String × Quantity)
  ISCSI : Option ISCSIVolumeSource

/-! ## Library functions of Go used by the program -/

/-- Go `len(s)` of a string: its length in bytes. -/
def len (s : String) : Nat := s.utf8ByteSize

/-- `unicode.ToLower` on one rune.  ASCII runes are lowered as Go does
(`'A'..'Z'` are shifted by `'a' - 'A'`); for any other rune Go consults the
Unicode case tables, which are the parameter `table`. -/
def runeToLower (table : Char → Char) (c : Char) : Char :=
  if c.toNat ≤ 127 then
    if 65 ≤ c.toNat ∧ c.toNat ≤ 90 then Char.ofNat (c.toNat + 32) else c
  else table c

/-- `strings.ToLower`: every rune of the string mapped by `unicode.ToLower`. -/
def ToLower (table : Char → Char) (s : String) : String :=
  String.mk (s.data.map (runeToLower table))

/-- Value of a decimal digit, `none` for any other rune. -/
def digitValue (c : Char) : Option Nat :=
  if 48 ≤ c.toNat ∧ c.toNat ≤ 57 then some (c.toNat - 48) else none

/-- Value of a non-empty run of decimal digits read after the accumulator
`acc`; `none` when a rune is not a digit. -/
def parseDigits : List Char → Nat → Option Nat
  | [], acc => some acc
  | c :: cs, acc =>
    match digitValue c with
    | some d => parseDigits cs (acc * 10 + d)
    | none => none

/-- Unsigned part of `strconv.ParseInt(s, 10, 0)`: syntax error on the empty
string and on any non-digit. -/
def parseUnsigned (cs : List Char) : Option Nat :=
  match cs with
  | [] => none
  | _ => parseDigits cs 0

/-- `strconv.Atoi`: an optional sign followed by one or more decimal digits,
in the range of the 64-bit `int`; `none` stands for a non-nil error. -/
def Atoi (s : String) : Option Int :=
  match s.data with
  | [] => none
  | c :: cs =>
    if c = '+' then
      match parseUnsigned cs with
      | some n => if n < 2 ^ 63 then some (n : Int) else none
      | none => none
    else if c = '-' then
      match parseUnsigned cs with
      | some n => if n ≤ 2 ^ 63 then some (-(n : Int)) else none
      | none => none
    else
      match parseUnsigned (c :: cs) with
      | some n => if n < 2 ^ 63 then some (n : Int) else none
      | none => none

/-! ## Secret resolution -/

/-- `GetSecretForPV`: the map built from the secret's data, or the error.
On error Go returns the empty map together with the error. -/
def GetSecretForPV (secretNamespace secretName volumePluginName : String)
    (kubeClient : Option Client) : Except Error (List (String × String)) :=
  match kubeClient with
  | none => .error .cannotGetKubeClient
  | some c =>
    match c.getSecret secretNamespace secretName with
    | .error err => .error err
    | .ok secrets =>
      if secrets.type ≠ volumePluginName then
        .error (.cannotGetSecretOfType volumePluginName)
      else
        .ok (secrets.Data.map (fun nd => (nd.1, nd.2)))

/-- The `range secretMap` loop of `parseSecret`; `secret` is the local
variable, and the result is the value that `parseSecret` returns. -/
def secretLoop : List (String × String) → String → String
  | [], secret => secret
  | (k, v) :: rest, _ => if k = secretKeyName then v else secretLoop rest v

/-- `parseSecret`. -/
def parseSecret (secretNamespace secretName : String) (kubeClient : Option Client) :
    Except Error String :=
  match GetSecretForPV secretNamespace secretName "glusterblock" kubeClient with
  | .error err => .error (.failedGetSecret secretNamespace secretName err)
  | .ok secretMap =>
    if secretMap.length = 0 then .error .emptySecretMap
    else .ok (secretLoop secretMap "")

/-- `parseSecret` with both of its Go results, the string and the error
(`none` for nil); `parseSecret` above is the same function with the results
read as an `Except`. -/
def parseSecretResults (secretNamespace secretName : String) (kubeClient : Option Client) :
    String × Option Error :=
  match GetSecretForPV secretNamespace secretName "glusterblock" kubeClient with
  | .error err => ("", some (.failedGetSecret secretNamespace secretName err))
  | .ok secretMap =>
    if secretMap.length = 0 then ("", some .emptySecretMap)
    else (secretLoop secretMap "", none)

/-! ## Parameter resolution -/

/-- Local variables of `parseClassParameters` that the `range params` loop
updates. -/
structure ParamState where
  cfg : provisionerConfig := {}
  authEnabled : Bool := true
  haCount : Int := 3
  deriving DecidableEq, Repr

/-- One iteration of the `range params` loop: the `switch` on the lower-cased
key.  An error is an early `return nil, err`. -/
def paramStep (table : Char → Char) (st : ParamState) (k v : String) :
    Except Error ParamState :=
  let lk := ToLower table k
  if lk = "resturl" then .ok { st with cfg := { st.cfg with url := v } }
  else if lk = "restuser" then .ok { st with cfg := { st.cfg with user := v } }
  else if lk = "restuserkey" then .ok { st with cfg := { st.cfg with userKey := v } }
  else if lk = "secretname" then .ok { st with cfg := { st.cfg with secretName := v } }
  else if lk = "secretnamespace" then
    .ok { st with cfg := { st.cfg with secretNamespace := v } }
  else if lk = "clusterid" then
    if len v ≠ 0 then .ok { st with cfg := { st.cfg with clusterId := v } } else .ok st
  else if lk = "restauthenabled" then
    .ok { st with authEnabled := decide (ToLower table v = "true") }
  else if lk = "hacount" then
    match Atoi v with
    | some n => .ok { st with haCount := n }
    | none => .error (.failedParseHacount k)
  else .error (.invalidOption k "glusterblock")

/-- The `range params` loop over the entries in iteration order. -/
def paramLoop (table : Char → Char) :
    List (String × String) → ParamState → Except Error ParamState
  | [], st => .ok st
  | (k, v) :: rest, st =>
    match paramStep table st k v with
    | .ok st' => paramLoop table rest st'
    | .error err => .error err

/-- The `if !authEnabled` block. -/
def clearCredentials (authEnabled : Bool) (cfg : provisionerConfig) : provisionerConfig :=
  if !authEnabled then
    { cfg with user := "", secretName := "", secretNamespace := "", userKey := "",
               secretValue := "" }
  else cfg

/-- The `if haCount == 0` block. -/
def normaliseHaCount (haCount : Int) (cfg : provisionerConfig) : provisionerConfig :=
  if haCount = 0 then { cfg with haCount := 3 } else cfg

/-- The code of `parseClassParameters` after the loop. -/
def finishParameters (st : ParamState) (kubeclient : Option Client) :
    Except Error provisionerConfig :=
  if len st.cfg.url = 0 then .error (.missingResturl "glusterblock")
  else
    let cfg := normaliseHaCount st.haCount st.cfg
    let cfg := clearCredentials st.authEnabled cfg
    if len cfg.secretName ≠ 0 ∨ len cfg.secretNamespace ≠ 0 then
      if len cfg.secretName ≠ 0 ∧ len cfg.secretNamespace ≠ 0 then
        match parseSecret cfg.secretNamespace cfg.secretName kubeclient with
        | .ok value => .ok { cfg with secretValue := value }
        | .error err => .error err
      else .error (.secretRefInconsistent "glusterblock")
    else .ok { cfg with secretValue := cfg.userKey }

/-- `parseClassParameters`; `params` lists the entries of the map in the order
of iteration. -/
def parseClassParameters (table : Char → Char) (params : List (String × String))
    (kubeclient : Option Client) : Except Error provisionerConfig :=
  match paramLoop table params {} with
  | .error err => .error err
  | .ok st => finishParameters st kubeclient

/-! ## Provisioner operations -/

/-- `metav1.LabelSelector`; the program only tests whether the pointer to it
is nil. -/
structure LabelSelector where
  MatchLabels : List (String × String) := []
  deriving DecidableEq, Repr

/-- `controller.VolumeOptions` with the fields of `PVC.Spec` that the program
reads: `Selector` is `PVC.Spec.Selector` (`none` for nil), `AccessModes` is
`PVC.Spec.AccessModes`, `Requests` is `PVC.Spec.Resources.Requests` and
`Parameters` lists the storage-class parameters in the order of iteration. -/
structure VolumeOptions (Quantity Mode Policy : Type) where
  PersistentVolumeReclaimPolicy : Policy
  PVName : String
  Selector : Option LabelSelector
  AccessModes : List Mode
  Requests : List (String × Quantity)
  Parameters : List (String × String)

/-- `v1.ResourceStorage`. -/
def ResourceStorage : String := "storage"

/-- Observable steps of a call of `Provision`: the call of `createVolume` and
the execution of the script, `exec.Command("sh", scriptPath).Run()`. -/
inductive Event where
  | createVolume (PVName : String)
  | runScript (scriptPath : String)
  deriving DecidableEq, Repr

/-- The three results of `createVolume` and the steps it took. -/
structure VolumeResult where
  server : String
  path : String
  err : Option Error
  trace : List Event
  deriving DecidableEq, Repr

/-- `glusterBlockProvisioner.createVolume`.  `getenv` is `os.Getenv` of the
provisioner process; the outcome of the script is only logged, and a child
process cannot change the environment of the provisioner. -/
def createVolume (getenv : String → String) (p : glusterBlockProvisioner) (PVName : String) :
    VolumeResult :=
  if p.provConfig.opMode = "script" then
    { server := getenv "SERVER", path := getenv "IQN", err := none,
      trace := [.createVolume PVName, .runScript p.provConfig.scriptPath] }
  else
    { server := "", path := "", err := none, trace := [.createVolume PVName] }

/-- Outcome of a call of `Provision`: the receiver after the call, the
returned volume or error, and the steps taken. -/
structure ProvisionResult (Quantity Mode Policy : Type) where
  provisioner : glusterBlockProvisioner
  result : Except Error (PersistentVolume Quantity Mode Policy)
  trace : List Event

/-- `glusterBlockProvisioner.Provision`.  `default` of `Q` is the zero
`Quantity`, the value of a lookup in `Requests` that finds no entry. -/
def Provision {Q M P : Type} [Inhabited Q] (table : Char → Char) (getenv : String → String)
    (p : glusterBlockProvisioner) (options : VolumeOptions Q M P) : ProvisionResult Q M P :=
  match parseClassParameters table options.Parameters p.client with
  | .error err => { provisioner := p, result := .error err, trace := [] }
  | .ok cfg =>
    let p := { p with provConfig := cfg }
    if options.Selector.isSome then
      { provisioner := p, result := .error .selectorNotSupported, trace := [] }
    else
      let r := createVolume getenv p options.PVName
      match r.err with
      | some err => { provisioner := p, result := .error err, trace := r.trace }
      | none =>
        { provisioner := p
          result := .ok
            { Name := options.PVName
              Annotations := [("glusterBlockProvisionerIdentity", p.identity)]
              PersistentVolumeReclaimPolicy := options.PersistentVolumeReclaimPolicy
              AccessModes := options.AccessModes
              Capacity :=
                [(ResourceStorage, (options.Requests.lookup ResourceStorage).getD default)]
              ISCSI := some
                { TargetPortal := r.server, IQN := r.path, Lun := 0, FSType := "ext3",
                  ReadOnly := false } }
          trace := r.trace }

/-- `glusterBlockProvisioner.Delete`; `none` is a nil error. -/
def Delete {Q M P : Type} (p : glusterBlockProvisioner) (volume : PersistentVolume Q M P) :
    Option Error :=
  match volume.Annotations.lookup "glusterBlockProvisionerIdentity" with
  | none => some .identityAnnotationNotFound
  | some ann =>
    if ann ≠ p.identity then
      some (.ignored "identity annotation on PV does not match ours")
    else none

/-! ## Example data -/

/-- A secret store holding one secret `ns/s` of type `glusterblock` with the
single entry `key = topsecret`. -/
def exampleStore : Client where
  getSecret := fun secretNamespace secretName =>
    if secretNamespace = "ns" ∧ secretName = "s" then
      .ok { type := "glusterblock", Data := [("key", "topsecret")] }
    else .error (.store "not found")

/-- A secret store that answers every request with the secret `s`. -/
def storeOf (s : Secret) : Client where
  getSecret := fun _ _ => .ok s

/-- A provisioner without client whose identity is `uid-1`. -/
def exampleProvisioner : glusterBlockProvisioner :=
  { client := none, identity := "uid-1" }

/-- A request for the 5-unit volume `pv-1` with the single parameter
`resturl`; quantities, access modes and reclaim policies are numbers here. -/
def exampleRequest : VolumeOptions Nat Nat Nat :=
  { PersistentVolumeReclaimPolicy := 1, PVName := "pv-1", Selector := none,
    AccessModes := [0], Requests := [("storage", 5)],
    Parameters := [("resturl", "http://heketi:8080")] }

/-- An environment in which no variable is set. -/
def emptyEnv : String → String := fun _ => ""

/-! ## Vocabulary of the statements -/

/-- The lower-cased keys that the `switch` of `parseClassParameters` accepts. -/
def recognisedKeys : List String :=
  ["resturl", "restuser", "restuserkey", "secretname", "secretnamespace", "clusterid",
   "restauthenabled", "hacount"]

/-- Every key of the mapping is recognised once lower-cased. -/
def allRecognised (table : Char → Char) (params : List (String × String)) : Prop :=
  ∀ kv ∈ params, ToLower table kv.1 ∈ recognisedKeys

/-- Every value given under a key that lower-cases to `hacount` parses as an
integer. -/
def hacountParses (table : Char → Char) (params : List (String × String)) : Prop :=
  ∀ kv ∈ params, ToLower table kv.1 = "hacount" → (Atoi kv.2).isSome = true

/-- The value the mapping supplies for the parameter `name`: the value of the
entry whose key lower-cases to `name`, the one iterated last when several keys
of the mapping do so; `none` when the mapping has no such key. -/
def supplied (table : Char → Char) (name : String) : List (String × String) → Option String
  | [] => none
  | (k, v) :: rest =>
    match supplied table name rest with
    | some w => some w
    | none => if ToLower table k = name then some v else none

/-- Authentication is enabled for the mapping: `restauthenabled` is absent or
its value lower-cases to `true`. -/
def authOn (table : Char → Char) (params : List (String × String)) : Prop :=
  ∀ v, supplied table "restauthenabled" params = some v → ToLower table v = "true"

/-- The mapping with every key replaced by its lower-cased form, the entries
in the same order. -/
def lowerKeys (table : Char → Char) (params : List (String × String)) :
    List (String × String) :=
  params.map (fun kv => (ToLower table kv.1, kv.2))

/-- The error with the parameter key that it names lower-cased. -/
def Error.lowerKey (table : Char → Char) : Error → Error
  | .failedParseHacount k => .failedParseHacount (ToLower table k)
  | .invalidOption k plugin => .invalidOption (ToLower table k) plugin
  | e => e

/-- Lower-casing a lower-cased string changes nothing, as is the case for the
case tables of Unicode. -/
def lowerIdempotent (table : Char → Char) : Prop :=
  ∀ s : String, ToLower table (ToLower table s) = ToLower table s

/-- The keys of the mapping are pairwise distinct after lower-casing. -/
def distinctLowered (table : Char → Char) (params : List (String × String)) : Prop :=
  (params.map (fun kv => ToLower table kv.1)).Nodup

/-- The mapping with the value `w` under every key that lower-cases to
`restauthenabled`. -/
def setAuth (table : Char → Char) (w : String) (params : List (String × String)) :
    List (String × String) :=
  params.map (fun kv => if ToLower table kv.1 = "restauthenabled" then (kv.1, w) else kv)

instance (table : Char → Char) (params : List (String × String)) :
    Decidable (distinctLowered table params) := by
  unfold distinctLowered; infer_instance

instance (table : Char → Char) (params : List (String × String)) :
    Decidable (allRecognised table params) := by
  unfold allRecognised; infer_instance

instance (table : Char → Char) (params : List (String × String)) :
    Decidable (hacountParses table params) := by
  unfold hacountParses; infer_instance

/-! ## Library facts -/

theorem len_eq_zero_iff (s : String) : len s = 0 ↔ s = "" := by
  cases s with
  | mk l =>
    cases l with
    | nil => simp [len, String.utf8ByteSize, String.utf8ByteSize.go]
    | cons c cs =>
      have hc := Char.utf8Size_pos c
      have hne : (String.mk (c :: cs)) ≠ "" := by
        intro h
        have := congrArg String.data h
        simp at this
      simp only [len, String.utf8ByteSize, String.utf8ByteSize.go, hne, iff_false]
      omega

theorem toLower_false (table : Char → Char) : ToLower table "false" = "false" := rfl

theorem toLower_true (table : Char → Char) : ToLower table "true" = "true" := rfl

/-! ## The supplied value of a parameter -/

/-- A supplied value is the value of an entry of the mapping under a key that
lower-cases to the parameter name. -/
theorem supplied_mem (table : Char → Char) (name : String) :
    ∀ (params : List (String × String)) (v : String),
      supplied table name params = some v →
      ∃ k, (k, v) ∈ params ∧ ToLower table k = name := by
  intro params
  induction params with
  | nil => intro v h; cases h
  | cons kv rest ih =>
    intro v h
    obtain ⟨k1, v1⟩ := kv
    simp only [supplied] at h
    cases hs : supplied table name rest with
    | some w =>
      rw [hs] at h
      cases h
      obtain ⟨k, hm, hk⟩ := ih v hs
      exact ⟨k, List.mem_cons_of_mem _ hm, hk⟩
    | none =>
      rw [hs] at h
      by_cases hk : ToLower table k1 = name
      · simp only [hk, if_true, Option.some.injEq] at h
        exact ⟨k1, h ▸ List.mem_cons_self _ _, hk⟩
      · simp [hk] at h

/-- No value is supplied exactly when no key of the mapping lower-cases to the
parameter name. -/
theorem supplied_eq_none (table : Char → Char) (name : String) :
    ∀ (params : List (String × String)),
      supplied table name params = none ↔ ∀ kv ∈ params, ToLower table kv.1 ≠ name := by
  intro params
  induction params with
  | nil => simp [supplied]
  | cons kv rest ih =>
    obtain ⟨k1, v1⟩ := kv
    simp only [supplied, List.mem_cons, forall_eq_or_imp]
    cases hs : supplied table name rest with
    | some w =>
      constructor
      · intro h; cases h
      · intro h
        rw [ih.2 h.2] at hs
        cases hs
    | none =>
      have hrest := ih.1 hs
      by_cases hk : ToLower table k1 = name
      · simp [hk]
      · simp only [hk, if_false, true_iff]
        exact ⟨hk, hrest⟩

/-- When every entry under the parameter name carries the same value, that
value is the supplied one in every order of iteration. -/
theorem supplied_of_unique (table : Char → Char) (name : String)
    (params : List (String × String)) (k v : String)
    (hk : (k, v) ∈ params) (hlk : ToLower table k = name)
    (huniq : ∀ kv ∈ params, ToLower table kv.1 = name → kv.2 = v) :
    supplied table name params = some v := by
  cases hs : supplied table name params with
  | none => exact absurd hlk ((supplied_eq_none table name params).1 hs (k, v) hk)
  | some w =>
    obtain ⟨k', hm, hk'⟩ := supplied_mem table name params w hs
    exact congrArg some (huniq (k', w) hm hk')

/-! ## The parameter loop -/

/-- Effect of one iteration that does not return on the locals of
`parseClassParameters`. -/
theorem paramStep_ok (table : Char → Char) (st st' : ParamState) (k v : String)
    (h : paramStep table st k v = .ok st') :
    st'.cfg.url = (if ToLower table k = "resturl" then v else st.cfg.url) ∧
    st'.cfg.user = (if ToLower table k = "restuser" then v else st.cfg.user) ∧
    st'.cfg.userKey = (if ToLower table k = "restuserkey" then v else st.cfg.userKey) ∧
    st'.cfg.secretName = (if ToLower table k = "secretname" then v else st.cfg.secretName) ∧
    st'.cfg.secretNamespace =
      (if ToLower table k = "secretnamespace" then v else st.cfg.secretNamespace) ∧
    st'.authEnabled =
      (if ToLower table k = "restauthenabled" then decide (ToLower table v = "true")
       else st.authEnabled) ∧
    st'.haCount = (if ToLower table k = "hacount" then (Atoi v).getD 0 else st.haCount) ∧
    st'.cfg.haCount = st.cfg.haCount ∧
    st'.cfg.secretValue = st.cfg.secretValue ∧
    st'.cfg.opMode = st.cfg.opMode ∧
    st'.cfg.scriptPath = st.cfg.scriptPath := by
  unfold paramStep at h
  simp only at h
  split_ifs at h with h1 h2 h3 h4 h5 h6 h7 h8 h9
  all_goals first
    | (cases h; simp_all)
    | (split at h <;> cases h; simp_all)

/-- A local that each iteration overwrites with `g v` under the key `name` and
leaves alone otherwise holds, after the loop, `g` of the supplied value. -/
theorem paramLoop_field {α : Type} (table : Char → Char) (f : ParamState → α)
    (name : String) (g : String → α)
    (hstep : ∀ st k v st', paramStep table st k v = .ok st' →
      f st' = if ToLower table k = name then g v else f st) :
    ∀ (params : List (String × String)) (st st' : ParamState),
      paramLoop table params st = .ok st' →
      f st' = ((supplied table name params).map g).getD (f st) := by
  intro params
  induction params with
  | nil =>
    intro st st' h
    simp only [paramLoop, Except.ok.injEq] at h
    simp [supplied, h]
  | cons kv rest ih =>
    intro st st' h
    obtain ⟨k, v⟩ := kv
    simp only [paramLoop] at h
    cases hs : paramStep table st k v with
    | error e => rw [hs] at h; cases h
    | ok s1 =>
      rw [hs] at h
      have h1 := ih s1 st' h
      have h2 := hstep st k v s1 hs
      rw [h1, h2]
      simp only [supplied]
      cases supplied table name rest with
      | some w => simp
      | none => by_cases hk : ToLower table k = name <;> simp [hk]

/-- A local that no iteration changes is unchanged by the loop. -/
theorem paramLoop_frame {α : Type} (table : Char → Char) (f : ParamState → α)
    (hstep : ∀ st k v st', paramStep table st k v = .ok st' → f st' = f st) :
    ∀ (params : List (String × String)) (st st' : ParamState),
      paramLoop table params st = .ok st' → f st' = f st := by
  intro params
  induction params with
  | nil =>
    intro st st' h
    simp only [paramLoop, Except.ok.injEq] at h
    rw [h]
  | cons kv rest ih =>
    intro st st' h
    obtain ⟨k, v⟩ := kv
    simp only [paramLoop] at h
    cases hs : paramStep table st k v with
    | error e => rw [hs] at h; cases h
    | ok s1 =>
      rw [hs] at h
      rw [ih s1 st' h, hstep st k v s1 hs]

/-- Locals of `parseClassParameters` after a loop that ran to its end, in
terms of the supplied parameters. -/
theorem paramLoop_ok (table : Char → Char) (params : List (String × String))
    (st : ParamState) (h : paramLoop table params {} = .ok st) :
    st.cfg.url = (supplied table "resturl" params).getD "" ∧
    st.cfg.user = (supplied table "restuser" params).getD "" ∧
    st.cfg.userKey = (supplied table "restuserkey" params).getD "" ∧
    st.cfg.secretName = (supplied table "secretname" params).getD "" ∧
    st.cfg.secretNamespace = (supplied table "secretnamespace" params).getD "" ∧
    st.authEnabled =
      ((supplied table "restauthenabled" params).map
        (fun v => decide (ToLower table v = "true"))).getD true ∧
    st.haCount =
      ((supplied table "hacount" params).map (fun v => (Atoi v).getD 0)).getD 3 ∧
    st.cfg.haCount = 0 ∧
    st.cfg.secretValue = "" ∧
    st.cfg.opMode = "" ∧
    st.cfg.scriptPath = "" := by
  refine ⟨?_, ?_, ?_, ?_, ?_, ?_, ?_, ?_, ?_, ?_, ?_⟩
  · simpa using paramLoop_field table (fun s => s.cfg.url) "resturl" id
      (fun a k v b hs => (paramStep_ok table a b k v hs).1) params _ _ h
  · simpa using paramLoop_field table (fun s => s.cfg.user) "restuser" id
      (fun a k v b hs => (paramStep_ok table a b k v hs).2.1) params _ _ h
  · simpa using paramLoop_field table (fun s => s.cfg.userKey) "restuserkey" id
      (fun a k v b hs => (paramStep_ok table a b k v hs).2.2.1) params _ _ h
  · simpa using paramLoop_field table (fun s => s.cfg.secretName) "secretname" id
      (fun a k v b hs => (paramStep_ok table a b k v hs).2.2.2.1) params _ _ h
  · simpa using paramLoop_field table (fun s => s.cfg.secretNamespace) "secretnamespace" id
      (fun a k v b hs => (paramStep_ok table a b k v hs).2.2.2.2.1) params _ _ h
  · exact paramLoop_field table (fun s => s.authEnabled) "restauthenabled"
      (fun v => decide (ToLower table v = "true"))
      (fun a k v b hs => (paramStep_ok table a b k v hs).2.2.2.2.2.1) params _ _ h
  · exact paramLoop_field table (fun s => s.haCount) "hacount" (fun v => (Atoi v).getD 0)
      (fun a k v b hs => (paramStep_ok table a b k v hs).2.2.2.2.2.2.1) params _ _ h
  · exact paramLoop_frame table (fun s => s.cfg.haCount)
      (fun a k v b hs => (paramStep_ok table a b k v hs).2.2.2.2.2.2.2.1) params _ _ h
  · exact paramLoop_frame table (fun s => s.cfg.secretValue)
      (fun a k v b hs => (paramStep_ok table a b k v hs).2.2.2.2.2.2.2.2.1) params _ _ h
  · exact paramLoop_frame table (fun s => s.cfg.opMode)
      (fun a k v b hs => (paramStep_ok table a b k v hs).2.2.2.2.2.2.2.2.2.1) params _ _ h
  · exact paramLoop_frame table (fun s => s.cfg.scriptPath)
      (fun a k v b hs => (paramStep_ok table a b k v hs).2.2.2.2.2.2.2.2.2.2) params _ _ h

/-- The two ways in which an iteration returns an error. -/
theorem paramStep_error (table : Char → Char) (st : ParamState) (k v : String) (e : Error)
    (h : paramStep table st k v = .error e) :
    (ToLower table k ∉ recognisedKeys ∧ e = .invalidOption k "glusterblock") ∨
    (ToLower table k = "hacount" ∧ Atoi v = none ∧ e = .failedParseHacount k) := by
  unfold paramStep at h
  simp only at h
  split_ifs at h with h1 h2 h3 h4 h5 h6 h7 h8 h9
  · split at h
    · cases h
    · rename_i hv
      cases h
      exact Or.inr ⟨h9, hv, rfl⟩
  · cases h
    exact Or.inl ⟨by simp [recognisedKeys, *], rfl⟩

/-- An iteration on an unrecognised key returns the invalid-option error. -/
theorem paramStep_unrecognised (table : Char → Char) (st : ParamState) (k v : String)
    (h : ToLower table k ∉ recognisedKeys) :
    paramStep table st k v = .error (.invalidOption k "glusterblock") := by
  simp only [recognisedKeys, List.mem_cons, List.mem_singleton, not_or, List.mem_nil_iff,
    or_false] at h
  obtain ⟨h1, h2, h3, h4, h5, h6, h7, h8⟩ := h
  simp [paramStep, h1, h2, h3, h4, h5, h6, h7, h8]

/-- An iteration on a `hacount` key with an unparseable value returns the
parse error. -/
theorem paramStep_hacount_bad (table : Char → Char) (st : ParamState) (k v : String)
    (hk : ToLower table k = "hacount") (hv : Atoi v = none) :
    paramStep table st k v = .error (.failedParseHacount k) := by
  simp [paramStep, hk, hv]

/-- An iteration on a recognised key whose `hacount` value, if it is one,
parses does not return. -/
theorem paramStep_total (table : Char → Char) (st : ParamState) (k v : String)
    (hk : ToLower table k ∈ recognisedKeys)
    (hv : ToLower table k = "hacount" → (Atoi v).isSome = true) :
    ∃ st', paramStep table st k v = .ok st' := by
  cases hs : paramStep table st k v with
  | ok s1 => exact ⟨s1, rfl⟩
  | error e =>
    rcases paramStep_error table st k v e hs with ⟨h, _⟩ | ⟨h, hn, _⟩
    · exact absurd hk h
    · have := hv h
      rw [hn] at this
      cases this

/-- A loop over recognised keys with parseable `hacount` values runs to its end. -/
theorem paramLoop_total (table : Char → Char) :
    ∀ (params : List (String × String)) (st : ParamState),
      allRecognised table params → hacountParses table params →
      ∃ st', paramLoop table params st = .ok st' := by
  intro params
  induction params with
  | nil => intro st _ _; exact ⟨st, rfl⟩
  | cons kv rest ih =>
    intro st hrec hha
    obtain ⟨k, v⟩ := kv
    obtain ⟨s1, hs⟩ := paramStep_total table st k v
      (hrec (k, v) (List.mem_cons_self _ _)) (hha (k, v) (List.mem_cons_self _ _))
    obtain ⟨s2, h2⟩ := ih s1
      (fun kv hkv => hrec kv (List.mem_cons_of_mem _ hkv))
      (fun kv hkv => hha kv (List.mem_cons_of_mem _ hkv))
    exact ⟨s2, by simp only [paramLoop, hs, h2]⟩

/-- An error of the loop is the error of one of its entries. -/
theorem paramLoop_error (table : Char → Char) :
    ∀ (params : List (String × String)) (st : ParamState) (e : Error),
      paramLoop table params st = .error e →
      (∃ k v, (k, v) ∈ params ∧ ToLower table k ∉ recognisedKeys ∧
        e = .invalidOption k "glusterblock") ∨
      (∃ k v, (k, v) ∈ params ∧ ToLower table k = "hacount" ∧ Atoi v = none ∧
        e = .failedParseHacount k) := by
  intro params
  induction params with
  | nil => intro st e h; cases h
  | cons kv rest ih =>
    intro st e h
    obtain ⟨k, v⟩ := kv
    simp only [paramLoop] at h
    cases hs : paramStep table st k v with
    | error e1 =>
      rw [hs] at h
      cases h
      rcases paramStep_error table st k v e hs with ⟨h1, h2⟩ | ⟨h1, h2, h3⟩
      · exact Or.inl ⟨k, v, List.mem_cons_self _ _, h1, h2⟩
      · exact Or.inr ⟨k, v, List.mem_cons_self _ _, h1, h2, h3⟩
    | ok s1 =>
      rw [hs] at h
      rcases ih s1 e h with ⟨k1, v1, hm, h1, h2⟩ | ⟨k1, v1, hm, h1, h2, h3⟩
      · exact Or.inl ⟨k1, v1, List.mem_cons_of_mem _ hm, h1, h2⟩
      · exact Or.inr ⟨k1, v1, List.mem_cons_of_mem _ hm, h1, h2, h3⟩

/-- A loop over a mapping one of whose entries makes its iteration return an
error returns an error. -/
theorem paramLoop_fails (table : Char → Char) (k v : String)
    (hbad : ∀ st, ∃ e, paramStep table st k v = .error e) :
    ∀ (params : List (String × String)) (st : ParamState),
      (k, v) ∈ params → ∃ e, paramLoop table params st = .error e := by
  intro params
  induction params with
  | nil => intro st h; cases h
  | cons kv rest ih =>
    intro st hm
    obtain ⟨k1, v1⟩ := kv
    cases hs : paramStep table st k1 v1 with
    | error e1 => exact ⟨e1, by simp only [paramLoop, hs]⟩
    | ok s1 =>
      rcases List.mem_cons.mp hm with heq | hin
      · obtain ⟨e, he⟩ := hbad st
        cases heq
        rw [he] at hs
        cases hs
      · obtain ⟨e, he⟩ := ih s1 hin
        exact ⟨e, by simp only [paramLoop, hs, he]⟩

/-- An error of the loop is the error of `parseClassParameters`. -/
theorem parse_of_loop_error (table : Char → Char) (params : List (String × String))
    (kubeclient : Option Client) (e : Error) (h : paramLoop table params {} = .error e) :
    parseClassParameters table params kubeclient = .error e := by
  simp only [parseClassParameters, h]

/-- A successful `parseClassParameters` ran its loop to the end. -/
theorem loop_of_parse_ok (table : Char → Char) (params : List (String × String))
    (kubeclient : Option Client) (cfg : provisionerConfig)
    (h : parseClassParameters table params kubeclient = .ok cfg) :
    ∃ st, paramLoop table params {} = .ok st ∧ finishParameters st kubeclient = .ok cfg := by
  unfold parseClassParameters at h
  cases hl : paramLoop table params {} with
  | error e => rw [hl] at h; cases h
  | ok st => rw [hl] at h; exact ⟨st, rfl, h⟩

/-! ## After the loop -/

/-- Fields of a config returned by the code after the loop. -/
theorem finish_ok (st : ParamState) (kubeclient : Option Client) (cfg : provisionerConfig)
    (h : finishParameters st kubeclient = .ok cfg) :
    st.cfg.url ≠ "" ∧ cfg.url = st.cfg.url ∧
    cfg.haCount = (if st.haCount = 0 then 3 else st.cfg.haCount) ∧
    cfg.opMode = st.cfg.opMode ∧ cfg.scriptPath = st.cfg.scriptPath := by
  unfold finishParameters at h
  simp only at h
  split_ifs at h with h1 h2 h3
  · have hurl : st.cfg.url ≠ "" := fun hu => h1 ((len_eq_zero_iff _).2 hu)
    split at h
    · cases h
      refine ⟨hurl, ?_, ?_, ?_, ?_⟩ <;>
        simp only [clearCredentials, normaliseHaCount] <;> split_ifs <;> simp_all
    · cases h
  · have hurl : st.cfg.url ≠ "" := fun hu => h1 ((len_eq_zero_iff _).2 hu)
    cases h
    refine ⟨hurl, ?_, ?_, ?_, ?_⟩ <;>
      simp only [clearCredentials, normaliseHaCount] <;> split_ifs <;> simp_all

/-- With authentication enabled the code after the loop keeps the credential
fields of the loop. -/
theorem clear_auth_on (cfg : provisionerConfig) : clearCredentials true cfg = cfg := by
  simp [clearCredentials]

/-- The `if haCount == 0` block changes no field but `haCount`. -/
theorem normaliseHaCount_fields (n : Int) (cfg : provisionerConfig) :
    (normaliseHaCount n cfg).url = cfg.url ∧
    (normaliseHaCount n cfg).user = cfg.user ∧
    (normaliseHaCount n cfg).userKey = cfg.userKey ∧
    (normaliseHaCount n cfg).secretName = cfg.secretName ∧
    (normaliseHaCount n cfg).secretNamespace = cfg.secretNamespace ∧
    (normaliseHaCount n cfg).secretValue = cfg.secretValue := by
  unfold normaliseHaCount
  split_ifs <;> simp

/-- The code after the loop when authentication is enabled and the url is not
empty. -/
theorem finish_auth_on (st : ParamState) (kubeclient : Option Client)
    (ha : st.authEnabled = true) (hurl : st.cfg.url ≠ "") :
    finishParameters st kubeclient =
      if st.cfg.secretName ≠ "" ∨ st.cfg.secretNamespace ≠ "" then
        if st.cfg.secretName ≠ "" ∧ st.cfg.secretNamespace ≠ "" then
          match parseSecret st.cfg.secretNamespace st.cfg.secretName kubeclient with
          | .ok value => .ok { normaliseHaCount st.haCount st.cfg with secretValue := value }
          | .error err => .error err
        else .error (.secretRefInconsistent "glusterblock")
      else .ok { normaliseHaCount st.haCount st.cfg with secretValue := st.cfg.userKey } := by
  obtain ⟨-, h2, h3, h4, h5, -⟩ := normaliseHaCount_fields st.haCount st.cfg
  unfold finishParameters
  simp only [ha, clear_auth_on, ne_eq, len_eq_zero_iff, hurl, if_false, h2, h3, h4, h5]

/-- Authentication stays enabled through the loop when `restauthenabled` is
absent or lower-cases to `true`. -/
theorem authEnabled_of_authOn (table : Char → Char) (params : List (String × String))
    (st : ParamState) (h : paramLoop table params {} = .ok st) (hauth : authOn table params) :
    st.authEnabled = true := by
  obtain ⟨-, -, -, -, -, h6, -⟩ := paramLoop_ok table params st h
  rw [h6]
  cases hs : supplied table "restauthenabled" params with
  | none => rfl
  | some v => simp [hauth v hs]

/-- The `haCount` of a returned config: 3 when the local `haCount` is 0 after
the loop, and the zero value of the field otherwise, since the local is never
copied into the config. -/
theorem parse_haCount (table : Char → Char) (params : List (String × String))
    (kubeclient : Option Client) (cfg : provisionerConfig)
    (h : parseClassParameters table params kubeclient = .ok cfg) :
    cfg.haCount =
      if ((supplied table "hacount" params).map (fun v => (Atoi v).getD 0)).getD 3 = 0
      then 3 else 0 := by
  obtain ⟨st, hst, hfin⟩ := loop_of_parse_ok table params kubeclient cfg h
  obtain ⟨-, -, -, -, -, -, h7, h8, -⟩ := paramLoop_ok table params st hst
  obtain ⟨-, -, hc, -⟩ := finish_ok st kubeclient cfg hfin
  rw [hc, h7, h8]

/-! ## The claims -/

/-- C1: `Delete` is decided only by the ownership annotation
`glusterBlockProvisionerIdentity` of the volume and the identity of the
provisioner.  It returns a plain, non-ignorable error when the annotation is
absent, an `IgnoredError` when the annotation is present and differs from the
identity, and nil exactly when the annotation is present and equal to it. -/
theorem C1_delete_by_ownership {Q M P : Type} (p : glusterBlockProvisioner)
    (volume : PersistentVolume Q M P) :
    (volume.Annotations.lookup "glusterBlockProvisionerIdentity" = none →
      Delete p volume = some .identityAnnotationNotFound ∧
      Error.isIgnored .identityAnnotationNotFound = false) ∧
    (∀ ann, volume.Annotations.lookup "glusterBlockProvisionerIdentity" = some ann →
      ann ≠ p.identity →
      ∃ e, Delete p volume = some e ∧ e.isIgnored = true) ∧
    (Delete p volume = none ↔
      volume.Annotations.lookup "glusterBlockProvisionerIdentity" = some p.identity) ∧
    (∀ {Q' M' P' : Type} (p' : glusterBlockProvisioner) (volume' : PersistentVolume Q' M' P'),
      p'.identity = p.identity →
      volume'.Annotations.lookup "glusterBlockProvisionerIdentity" =
        volume.Annotations.lookup "glusterBlockProvisionerIdentity" →
      Delete p' volume' = Delete p volume) := by
  refine ⟨?_, ?_, ?_, ?_⟩
  · intro h
    simp [Delete, h, Error.isIgnored]
  · intro ann h hne
    exact ⟨.ignored "identity annotation on PV does not match ours",
      by simp [Delete, h, hne], rfl⟩
  · unfold Delete
    cases volume.Annotations.lookup "glusterBlockProvisionerIdentity" with
    | none => simp
    | some ann => by_cases hne : ann = p.identity <;> simp [hne]
  · intro Q' M' P' p' volume' hid hl
    simp only [Delete, hid, hl]

/-- Witness of C1: a volume stamped `uid-1` is deleted by the provisioner whose
identity is `uid-1`. -/
theorem C1_delete_by_ownership_witness :
    Delete (Q := Nat) (M := Nat) (P := Nat) { client := none, identity := "uid-1" }
      { Name := "pv", Annotations := [("glusterBlockProvisionerIdentity", "uid-1")],
        PersistentVolumeReclaimPolicy := 0, AccessModes := [], Capacity := [],
        ISCSI := none } = none :=
  ((C1_delete_by_ownership (Q := Nat) (M := Nat) (P := Nat)
      { client := none, identity := "uid-1" }
      { Name := "pv", Annotations := [("glusterBlockProvisionerIdentity", "uid-1")],
        PersistentVolumeReclaimPolicy := 0, AccessModes := [], Capacity := [],
        ISCSI := none }).2.2.1).2 rfl

/-- C2: for a mapping with only recognised keys, parseable `hacount` values, a
non-empty `resturl` and `restauthenabled` equal to `false`,
`parseClassParameters` succeeds whatever credentials are supplied, with the
same config for every secret store; its user, user key, secret name, secret
namespace and secret value are all empty. -/
theorem C2_auth_disabled_clears (table : Char → Char) (params : List (String × String))
    (url : String) (hrec : allRecognised table params) (hha : hacountParses table params)
    (hurl : supplied table "resturl" params = some url) (hne : url ≠ "")
    (hauth : supplied table "restauthenabled" params = some "false") :
    ∃ cfg, (∀ kubeclient, parseClassParameters table params kubeclient = .ok cfg) ∧
      cfg.user = "" ∧ cfg.userKey = "" ∧ cfg.secretName = "" ∧ cfg.secretNamespace = "" ∧
      cfg.secretValue = "" := by
  obtain ⟨st, hst⟩ := paramLoop_total table params {} hrec hha
  obtain ⟨h1, -, -, -, -, h6, -⟩ := paramLoop_ok table params st hst
  have hu : st.cfg.url = url := by rw [h1, hurl]; rfl
  have ha : st.authEnabled = false := by
    rw [h6, hauth]
    simp [toLower_false]
  have hl : ¬ len st.cfg.url = 0 := fun h => hne (hu ▸ (len_eq_zero_iff _).1 h)
  have hempty : len "" = 0 := (len_eq_zero_iff _).2 rfl
  refine ⟨{ normaliseHaCount st.haCount st.cfg with
      user := "", secretName := "", secretNamespace := "", userKey := "",
      secretValue := "" }, ?_, rfl, rfl, rfl, rfl, rfl⟩
  intro kubeclient
  simp [parseClassParameters, hst, finishParameters, hl, ha, clearCredentials, hempty]

/-- Witness of C2: every credential parameter supplied, authentication
disabled. -/
theorem C2_auth_disabled_clears_witness :
    ∃ cfg, (∀ kubeclient, parseClassParameters id
        [("resturl", "http://heketi:8080"), ("restuser", "admin"), ("restuserkey", "pw"),
         ("secretname", "s"), ("secretnamespace", "ns"), ("restauthenabled", "false")]
        kubeclient = .ok cfg) ∧
      cfg.user = "" ∧ cfg.userKey = "" ∧ cfg.secretName = "" ∧ cfg.secretNamespace = "" ∧
      cfg.secretValue = "" :=
  C2_auth_disabled_clears id
    [("resturl", "http://heketi:8080"), ("restuser", "admin"), ("restuserkey", "pw"),
     ("secretname", "s"), ("secretnamespace", "ns"), ("restauthenabled", "false")]
    "http://heketi:8080" (by decide) (by decide) rfl (by decide) rfl

/-- C3: for a mapping that `parseClassParameters` resolves with authentication
enabled: when `secretname` and `secretnamespace` are both non-empty the secret
value of the config is the value `parseSecret` obtains from the store for that
namespace and name, whatever `restuserkey` is; when both are empty it is the
supplied `restuserkey`, the empty string when none is supplied. -/
theorem C3_secret_value_source (table : Char → Char) (params : List (String × String))
    (kubeclient : Option Client) (cfg : provisionerConfig)
    (hok : parseClassParameters table params kubeclient = .ok cfg)
    (hauth : authOn table params) :
    (∀ name ns, supplied table "secretname" params = some name → name ≠ "" →
      supplied table "secretnamespace" params = some ns → ns ≠ "" →
      parseSecret ns name kubeclient = .ok cfg.secretValue) ∧
    ((supplied table "secretname" params).getD "" = "" →
      (supplied table "secretnamespace" params).getD "" = "" →
      cfg.secretValue = (supplied table "restuserkey" params).getD "") := by
  obtain ⟨st, hst, hfin⟩ := loop_of_parse_ok table params kubeclient cfg hok
  obtain ⟨-, -, h3, h4, h5, -⟩ := paramLoop_ok table params st hst
  have ha := authEnabled_of_authOn table params st hst hauth
  have hurl := (finish_ok st kubeclient cfg hfin).1
  rw [finish_auth_on st kubeclient ha hurl] at hfin
  constructor
  · intro name ns hn hne hs hnse
    have e4 : st.cfg.secretName = name := by rw [h4, hn]; rfl
    have e5 : st.cfg.secretNamespace = ns := by rw [h5, hs]; rfl
    rw [e4, e5] at hfin
    simp only [ne_eq, hne, hnse, not_false_eq_true, or_self, and_self, if_true] at hfin
    cases hp : parseSecret ns name kubeclient with
    | error e => rw [hp] at hfin; cases hfin
    | ok value =>
      rw [hp] at hfin
      simp only [Except.ok.injEq] at hfin
      rw [← hfin]
  · intro hn hs
    rw [← h4] at hn
    rw [← h5] at hs
    simp only [ne_eq, hn, hs, not_true_eq_false, or_self, if_false, Except.ok.injEq] at hfin
    rw [← hfin, ← h3]

/-- Witness of C3: a secret reference `ns/s` and an inline key; the value of
the store wins. -/
theorem C3_secret_value_source_witness :
    parseSecret "ns" "s" (some exampleStore) = .ok "topsecret" :=
  (C3_secret_value_source id
    [("resturl", "http://heketi:8080"), ("restuserkey", "inline"), ("secretname", "s"),
     ("secretnamespace", "ns")]
    (some exampleStore)
    { url := "http://heketi:8080", userKey := "inline", secretName := "s",
      secretNamespace := "ns", secretValue := "topsecret" }
    rfl (fun _ h => by cases h)).1 "s" "ns" rfl (by decide) rfl (by decide)

/-- Counterexample to C4 as stated: only recognised keys, no `hacount`, a
non-empty `resturl`, `secretname` set and `secretnamespace` absent, yet with
`restauthenabled=false` the mapping resolves to a config. -/
theorem C4_counterexample :
    allRecognised id
      [("resturl", "http://heketi:8080"), ("secretname", "s"), ("restauthenabled", "false")] ∧
    hacountParses id
      [("resturl", "http://heketi:8080"), ("secretname", "s"), ("restauthenabled", "false")] ∧
    supplied id "resturl"
      [("resturl", "http://heketi:8080"), ("secretname", "s"), ("restauthenabled", "false")]
      = some "http://heketi:8080" ∧
    supplied id "secretname"
      [("resturl", "http://heketi:8080"), ("secretname", "s"), ("restauthenabled", "false")]
      = some "s" ∧
    supplied id "secretnamespace"
      [("resturl", "http://heketi:8080"), ("secretname", "s"), ("restauthenabled", "false")]
      = none ∧
    parseClassParameters id
      [("resturl", "http://heketi:8080"), ("secretname", "s"), ("restauthenabled", "false")]
      none = .ok { url := "http://heketi:8080" } :=
  ⟨by decide, by decide, rfl, rfl, rfl, rfl⟩

/-- C4 (amended): for a mapping with only recognised keys, parseable `hacount`
values and a non-empty `resturl`, in which authentication is enabled
(`restauthenabled` absent or lower-casing to `true`) and exactly one of
`secretname` and `secretnamespace` is non-empty, `parseClassParameters`
returns no config and the inconsistent-secret-reference error. -/
theorem C4_half_secret_reference (table : Char → Char) (params : List (String × String))
    (kubeclient : Option Client) (url : String)
    (hrec : allRecognised table params) (hha : hacountParses table params)
    (hurl : supplied table "resturl" params = some url) (hne : url ≠ "")
    (hauth : authOn table params)
    (hone : ((supplied table "secretname" params).getD "" ≠ "" ∧
              (supplied table "secretnamespace" params).getD "" = "") ∨
            ((supplied table "secretname" params).getD "" = "" ∧
              (supplied table "secretnamespace" params).getD "" ≠ "")) :
    parseClassParameters table params kubeclient =
      .error (.secretRefInconsistent "glusterblock") := by
  obtain ⟨st, hst⟩ := paramLoop_total table params {} hrec hha
  obtain ⟨h1, -, -, h4, h5, -⟩ := paramLoop_ok table params st hst
  have ha := authEnabled_of_authOn table params st hst hauth
  have hu : st.cfg.url ≠ "" := by rw [h1, hurl]; exact hne
  rw [← h4, ← h5] at hone
  simp only [parseClassParameters, hst, finish_auth_on st kubeclient ha hu]
  rcases hone with ⟨ha1, ha2⟩ | ⟨ha1, ha2⟩ <;> simp [ha1, ha2]

/-- Witness of C4 (amended): `secretname` alone, authentication left enabled. -/
theorem C4_half_secret_reference_witness :
    parseClassParameters id [("resturl", "http://heketi:8080"), ("secretname", "s")] none =
      .error (.secretRefInconsistent "glusterblock") :=
  C4_half_secret_reference id [("resturl", "http://heketi:8080"), ("secretname", "s")] none
    "http://heketi:8080" (by decide) (by decide) rfl (by decide) (fun _ h => by cases h)
    (Or.inl ⟨by decide, rfl⟩)

/-- Counterexample to C5 as stated: the mapping `hacount=abc, foo=x` holds the
unrecognised key `foo`, and iterated with `hacount` first it fails with the
`hacount` parse error, not with an invalid-option error; the mapping
`bar=y, foo=x` iterated with `bar` first fails with an error naming `bar`,
not `foo`. -/
theorem C5_counterexample :
    ToLower id "foo" ∉ recognisedKeys ∧
    parseClassParameters id [("hacount", "abc"), ("foo", "x")] none =
      .error (.failedParseHacount "hacount") ∧
    parseClassParameters id [("bar", "y"), ("foo", "x")] none =
      .error (.invalidOption "bar" "glusterblock") :=
  ⟨by decide, rfl, rfl⟩

/-- C5 (amended): for a mapping that contains a key whose lower-cased form is
not recognised, and for every order of iteration, `parseClassParameters`
returns no config and an error.  The error is an invalid-option error naming
an unrecognised key of the mapping, or the `hacount` parse error naming a
`hacount` key of the mapping whose value does not parse.  When the key is the
only unrecognised key of the mapping and every `hacount` value parses, the
error is the invalid-option error naming that key. -/
theorem C5_unrecognised_key_fails (table : Char → Char) (params : List (String × String))
    (kubeclient : Option Client) (k v : String)
    (hk : (k, v) ∈ params) (hun : ToLower table k ∉ recognisedKeys) :
    ∀ order : List (String × String), order.Perm params →
      ∃ e, parseClassParameters table order kubeclient = .error e ∧
        ((∃ k' v', (k', v') ∈ params ∧ ToLower table k' ∉ recognisedKeys ∧
            e = .invalidOption k' "glusterblock") ∨
         (∃ k' v', (k', v') ∈ params ∧ ToLower table k' = "hacount" ∧ Atoi v' = none ∧
            e = .failedParseHacount k')) ∧
        ((∀ k' v', (k', v') ∈ params → ToLower table k' ∉ recognisedKeys → k' = k) →
          hacountParses table params → e = .invalidOption k "glusterblock") := by
  intro order hperm
  obtain ⟨e, he⟩ := paramLoop_fails table k v
    (fun st => ⟨_, paramStep_unrecognised table st k v hun⟩) order {} (hperm.mem_iff.2 hk)
  refine ⟨e, parse_of_loop_error table order kubeclient e he, ?_, ?_⟩
  · rcases paramLoop_error table order {} e he with ⟨k1, v1, hm, h1, h2⟩ | ⟨k1, v1, hm, h1, h2, h3⟩
    · exact Or.inl ⟨k1, v1, hperm.mem_iff.1 hm, h1, h2⟩
    · exact Or.inr ⟨k1, v1, hperm.mem_iff.1 hm, h1, h2, h3⟩
  · intro honly hha
    rcases paramLoop_error table order {} e he with ⟨k1, v1, hm, h1, h2⟩ | ⟨k1, v1, hm, h1, h2, h3⟩
    · rw [h2, honly k1 v1 (hperm.mem_iff.1 hm) h1]
    · have := hha (k1, v1) (hperm.mem_iff.1 hm) h1
      rw [h2] at this
      cases this

/-- Witness of C5 (amended): the mapping `resturl, RestUsr`, iterated in the
other order. -/
theorem C5_unrecognised_key_fails_witness :
    ∃ e, parseClassParameters id [("RestUsr", "admin"), ("resturl", "http://heketi:8080")]
        none = .error e ∧
      ((∃ k' v', (k', v') ∈ [("resturl", "http://heketi:8080"), ("RestUsr", "admin")] ∧
          ToLower id k' ∉ recognisedKeys ∧ e = .invalidOption k' "glusterblock") ∨
       (∃ k' v', (k', v') ∈ [("resturl", "http://heketi:8080"), ("RestUsr", "admin")] ∧
          ToLower id k' = "hacount" ∧ Atoi v' = none ∧ e = .failedParseHacount k')) ∧
      ((∀ k' v', (k', v') ∈ [("resturl", "http://heketi:8080"), ("RestUsr", "admin")] →
          ToLower id k' ∉ recognisedKeys → k' = "RestUsr") →
        hacountParses id [("resturl", "http://heketi:8080"), ("RestUsr", "admin")] →
        e = .invalidOption "RestUsr" "glusterblock") :=
  C5_unrecognised_key_fails id [("resturl", "http://heketi:8080"), ("RestUsr", "admin")] none
    "RestUsr" "admin" (by decide) (by decide)
    [("RestUsr", "admin"), ("resturl", "http://heketi:8080")] (List.Perm.swap _ _ _)

/-- C6: for a mapping with only recognised keys and parseable `hacount` values
in which `resturl` is absent or empty, `parseClassParameters` returns no
config and the error that the `resturl` parameter is required; conversely
every config it returns has a non-empty url equal to the supplied `resturl`. -/
theorem C6_resturl_required (table : Char → Char) (params : List (String × String))
    (kubeclient : Option Client) :
    (allRecognised table params → hacountParses table params →
      (supplied table "resturl" params).getD "" = "" →
      parseClassParameters table params kubeclient = .error (.missingResturl "glusterblock")) ∧
    (∀ cfg, parseClassParameters table params kubeclient = .ok cfg →
      cfg.url ≠ "" ∧ supplied table "resturl" params = some cfg.url) := by
  constructor
  · intro hrec hha hurl
    obtain ⟨st, hst⟩ := paramLoop_total table params {} hrec hha
    obtain ⟨h1, -⟩ := paramLoop_ok table params st hst
    have hl : len st.cfg.url = 0 := (len_eq_zero_iff _).2 (by rw [h1, hurl])
    simp only [parseClassParameters, hst, finishParameters, hl, if_true]
  · intro cfg hok
    obtain ⟨st, hst, hfin⟩ := loop_of_parse_ok table params kubeclient cfg hok
    obtain ⟨h1, -⟩ := paramLoop_ok table params st hst
    obtain ⟨hne, hu, -⟩ := finish_ok st kubeclient cfg hfin
    rw [hu]
    refine ⟨hne, ?_⟩
    rw [h1] at hne ⊢
    cases hs : supplied table "resturl" params with
    | none => rw [hs] at hne; exact absurd rfl hne
    | some w => rfl

/-- Witness of C6: an empty `resturl` is refused, and a resolved mapping
carries its `resturl`. -/
theorem C6_resturl_required_witness :
    parseClassParameters id [("resturl", ""), ("restuser", "admin")] none =
      .error (.missingResturl "glusterblock") ∧
    supplied id "resturl" [("RestURL", "http://heketi:8080")] = some "http://heketi:8080" :=
  ⟨(C6_resturl_required id [("resturl", ""), ("restuser", "admin")] none).1
      (by decide) (by decide) rfl,
   ((C6_resturl_required id [("RestURL", "http://heketi:8080")] none).2
      { url := "http://heketi:8080" } rfl).2⟩

/-- C7 (evaluation at the failing input): `hacount=5` parses to 5 and the
mapping resolves, but the `haCount` of the returned config is 0, the zero
value of the field, not 5. -/
theorem C7_hacount_five_not_stored :
    Atoi "5" = some 5 ∧
    parseClassParameters id [("resturl", "http://heketi:8080"), ("hacount", "5")] none =
      .ok { url := "http://heketi:8080", haCount := 0 } :=
  ⟨rfl, rfl⟩

/-- C8 (evaluation at the failing input): a mapping without `hacount`
resolves, but the `haCount` of the returned config is 0, the zero value of
the field, not the default 3. -/
theorem C8_default_hacount_not_stored :
    supplied id "hacount" [("resturl", "http://heketi:8080")] = none ∧
    parseClassParameters id [("resturl", "http://heketi:8080")] none =
      .ok { url := "http://heketi:8080", haCount := 0 } :=
  ⟨rfl, rfl⟩

/-- C9: for a mapping that resolves and supplies `hacount` with a value that
parses to the integer 0, the `haCount` of the config is 3. -/
theorem C9_hacount_zero_is_three (table : Char → Char) (params : List (String × String))
    (kubeclient : Option Client) (cfg : provisionerConfig) (v : String)
    (hok : parseClassParameters table params kubeclient = .ok cfg)
    (hv : supplied table "hacount" params = some v) (h0 : Atoi v = some 0) :
    cfg.haCount = 3 := by
  rw [parse_haCount table params kubeclient cfg hok, hv]
  simp [h0]

/-- Witness of C9: the mapping `HACount=-0, resturl` resolves, `-0` parses to
0, and the config holds 3. -/
theorem C9_hacount_zero_is_three_witness :
    parseClassParameters id [("HACount", "-0"), ("resturl", "http://heketi:8080")] none =
      .ok { url := "http://heketi:8080", haCount := 3 } ∧
    supplied id "hacount" [("HACount", "-0"), ("resturl", "http://heketi:8080")] = some "-0" ∧
    Atoi "-0" = some 0 ∧
    ({ url := "http://heketi:8080", haCount := 3 } : provisionerConfig).haCount = 3 :=
  ⟨rfl, rfl, rfl,
   C9_hacount_zero_is_three id [("HACount", "-0"), ("resturl", "http://heketi:8080")] none
      { url := "http://heketi:8080", haCount := 3 } "-0" rfl rfl rfl⟩

/-- C10: for a mapping with only recognised keys that holds a `hacount` entry
whose value does not parse as a decimal integer, `parseClassParameters`
returns no config and the `hacount` parse error naming the key of such an
entry, whatever the other parameters and the order of iteration are; it names
that very key when no other `hacount` key of the mapping has an unparseable
value. -/
theorem C10_hacount_unparseable (table : Char → Char) (params : List (String × String))
    (kubeclient : Option Client) (k v : String)
    (hrec : allRecognised table params) (hk : (k, v) ∈ params)
    (hlk : ToLower table k = "hacount") (hv : Atoi v = none) :
    (∃ k' v', (k', v') ∈ params ∧ ToLower table k' = "hacount" ∧ Atoi v' = none ∧
      parseClassParameters table params kubeclient = .error (.failedParseHacount k')) ∧
    ((∀ k' v', (k', v') ∈ params → ToLower table k' = "hacount" → Atoi v' = none → k' = k) →
      parseClassParameters table params kubeclient = .error (.failedParseHacount k)) := by
  obtain ⟨e, he⟩ := paramLoop_fails table k v
    (fun st => ⟨_, paramStep_hacount_bad table st k v hlk hv⟩) params {} hk
  have hp := parse_of_loop_error table params kubeclient e he
  rcases paramLoop_error table params {} e he with ⟨k1, v1, hm, h1, -⟩ | ⟨k1, v1, hm, h1, h2, h3⟩
  · exact absurd (hrec (k1, v1) hm) h1
  · refine ⟨⟨k1, v1, hm, h1, h2, h3 ▸ hp⟩, ?_⟩
    intro honly
    rw [hp, h3, honly k1 v1 hm h1 h2]

/-- Witness of C10: `hacount=abc` next to a valid `resturl`. -/
theorem C10_hacount_unparseable_witness :
    parseClassParameters id [("resturl", "http://heketi:8080"), ("hacount", "abc")] none =
      .error (.failedParseHacount "hacount") :=
  (C10_hacount_unparseable id [("resturl", "http://heketi:8080"), ("hacount", "abc")] none
    "hacount" "abc" (by decide) (by decide) rfl rfl).2 (by
      intro k' v' hm hl _
      simp only [List.mem_cons, Prod.mk.injEq, List.mem_singleton, List.mem_nil_iff,
        or_false] at hm
      rcases hm with ⟨h1, -⟩ | ⟨h1, -⟩
      · rw [h1] at hl; exact absurd hl (by decide)
      · exact h1)

/-! ## Provision -/

/-- `createVolume` never returns an error. -/
theorem createVolume_err (getenv : String → String) (p : glusterBlockProvisioner)
    (PVName : String) : (createVolume getenv p PVName).err = none := by
  unfold createVolume
  split_ifs <;> rfl

/-- `Provision` on a request without selector whose parameters resolve. -/
theorem Provision_resolved {Q M P : Type} [Inhabited Q] (table : Char → Char)
    (getenv : String → String) (p : glusterBlockProvisioner) (options : VolumeOptions Q M P)
    (cfg : provisionerConfig)
    (hcfg : parseClassParameters table options.Parameters p.client = .ok cfg)
    (hsel : options.Selector = none) :
    Provision table getenv p options =
      { provisioner := { p with provConfig := cfg }
        result := .ok
          { Name := options.PVName
            Annotations := [("glusterBlockProvisionerIdentity", p.identity)]
            PersistentVolumeReclaimPolicy := options.PersistentVolumeReclaimPolicy
            AccessModes := options.AccessModes
            Capacity :=
              [(ResourceStorage, (options.Requests.lookup ResourceStorage).getD default)]
            ISCSI := some
              { TargetPortal :=
                  (createVolume getenv { p with provConfig := cfg } options.PVName).server
                IQN := (createVolume getenv { p with provConfig := cfg } options.PVName).path
                Lun := 0, FSType := "ext3", ReadOnly := false } }
        trace := (createVolume getenv { p with provConfig := cfg } options.PVName).trace } := by
  unfold Provision
  simp only [hcfg, hsel, Option.isSome_none, Bool.false_eq_true, if_false, createVolume_err]

/-- A successful `Provision` resolved the parameters of a request without
selector. -/
theorem Provision_ok {Q M P : Type} [Inhabited Q] (table : Char → Char)
    (getenv : String → String) (p : glusterBlockProvisioner) (options : VolumeOptions Q M P)
    (pv : PersistentVolume Q M P)
    (h : (Provision table getenv p options).result = .ok pv) :
    ∃ cfg, parseClassParameters table options.Parameters p.client = .ok cfg ∧
      options.Selector = none := by
  cases hcfg : parseClassParameters table options.Parameters p.client with
  | error e =>
    simp only [Provision, hcfg] at h
    cases h
  | ok cfg =>
    refine ⟨cfg, rfl, ?_⟩
    cases hsel : options.Selector with
    | none => rfl
    | some sel =>
      simp only [Provision, hcfg, hsel, Option.isSome_some, if_true] at h
      cases h

/-- C11 (counterexample): a request with a selector and no parameters fails
with the error that `resturl` is required, not with the selector error. -/
theorem C11_counterexample :
    (Provision id emptyEnv exampleProvisioner
      { exampleRequest with Selector := some {}, Parameters := [] }).result =
      .error (.missingResturl "glusterblock") :=
  rfl

/-- C11 (amended): for every request whose claim carries a non-nil selector,
`Provision` returns no volume and an error, and `createVolume` is never
invoked; the error is `claim Selector is not supported` when the parameters
of the request resolve, and the error of `parseClassParameters` when they do
not. -/
theorem C11_selector_rejected {Q M P : Type} [Inhabited Q] (table : Char → Char)
    (getenv : String → String) (p : glusterBlockProvisioner) (options : VolumeOptions Q M P)
    (hsel : options.Selector ≠ none) :
    (Provision table getenv p options).trace = [] ∧
    (∀ cfg, parseClassParameters table options.Parameters p.client = .ok cfg →
      (Provision table getenv p options).result = .error .selectorNotSupported) ∧
    (∀ e, parseClassParameters table options.Parameters p.client = .error e →
      (Provision table getenv p options).result = .error e) := by
  have hs : options.Selector.isSome = true := by
    cases h : options.Selector with
    | none => exact absurd h hsel
    | some sel => rfl
  refine ⟨?_, ?_, ?_⟩
  · unfold Provision
    cases parseClassParameters table options.Parameters p.client with
    | error e => rfl
    | ok cfg => simp only [hs, if_true]
  · intro cfg hcfg
    simp only [Provision, hcfg, hs, if_true]
  · intro e he
    simp only [Provision, he]

/-- Witness of C11 (amended): the example request with a selector. -/
theorem C11_selector_rejected_witness :
    (Provision id emptyEnv exampleProvisioner
      { exampleRequest with Selector := some {} }).trace = [] ∧
    (Provision id emptyEnv exampleProvisioner
      { exampleRequest with Selector := some {} }).result = .error .selectorNotSupported :=
  ⟨(C11_selector_rejected id emptyEnv exampleProvisioner
      { exampleRequest with Selector := some {} } (by decide)).1,
   (C11_selector_rejected id emptyEnv exampleProvisioner
      { exampleRequest with Selector := some {} } (by decide)).2.1
      { url := "http://heketi:8080" } rfl⟩

/-- C12 (counterexample): the example request has no selector and its
parameters resolve; `createVolume` yields an empty endpoint and an empty
identifier, and `Provision` returns a volume and no error. -/
theorem C12_counterexample :
    (createVolume emptyEnv
      { exampleProvisioner with provConfig := { url := "http://heketi:8080" } } "pv-1").server
      = "" ∧
    (createVolume emptyEnv
      { exampleProvisioner with provConfig := { url := "http://heketi:8080" } } "pv-1").path
      = "" ∧
    (Provision id emptyEnv exampleProvisioner exampleRequest).result =
      .ok { Name := "pv-1", Annotations := [("glusterBlockProvisionerIdentity", "uid-1")],
            PersistentVolumeReclaimPolicy := 1, AccessModes := [0],
            Capacity := [("storage", 5)],
            ISCSI := some { TargetPortal := "", IQN := "", Lun := 0, FSType := "ext3",
                            ReadOnly := false } } :=
  ⟨rfl, rfl, rfl⟩

/-- C12 (amended): for every request without a selector whose parameters
resolve, `Provision` returns no error and a volume descriptor whose
`TargetPortal` and `IQN` are the endpoint and the identifier that
`createVolume` yielded, also when one of them is empty: an empty result of
the backend call shows as empty fields of the descriptor. -/
theorem C12_empty_result_returned {Q M P : Type} [Inhabited Q] (table : Char → Char)
    (getenv : String → String) (p : glusterBlockProvisioner) (options : VolumeOptions Q M P)
    (cfg : provisionerConfig)
    (hsel : options.Selector = none)
    (hcfg : parseClassParameters table options.Parameters p.client = .ok cfg) :
    ∃ pv, (Provision table getenv p options).result = .ok pv ∧
      pv.ISCSI = some
        { TargetPortal :=
            (createVolume getenv { p with provConfig := cfg } options.PVName).server
          IQN := (createVolume getenv { p with provConfig := cfg } options.PVName).path
          Lun := 0, FSType := "ext3", ReadOnly := false } := by
  rw [Provision_resolved table getenv p options cfg hcfg hsel]
  exact ⟨_, rfl, rfl⟩

/-- Witness of C12 (amended): the example request yields a descriptor with an
empty portal and an empty IQN. -/
theorem C12_empty_result_returned_witness :
    ∃ pv, (Provision id emptyEnv exampleProvisioner exampleRequest).result = .ok pv ∧
      pv.ISCSI = some
        { TargetPortal := "", IQN := "", Lun := 0, FSType := "ext3", ReadOnly := false } :=
  C12_empty_result_returned id emptyEnv exampleProvisioner exampleRequest
    { url := "http://heketi:8080" } rfl rfl

/-- C13: the volume returned by a successful `Provision` is the fixed-format
descriptor built from the request and the result of `createVolume`: its name
is the requested PV name, reclaim policy and access modes are those of the
request, the capacity holds the one entry `storage` with the storage quantity
requested by the claim, and the iSCSI block has the server as `TargetPortal`,
the path as `IQN`, `Lun` 0, `FSType` `ext3` and `ReadOnly` false. -/
theorem C13_descriptor_format {Q M P : Type} [Inhabited Q] (table : Char → Char)
    (getenv : String → String) (p : glusterBlockProvisioner) (options : VolumeOptions Q M P)
    (pv : PersistentVolume Q M P)
    (h : (Provision table getenv p options).result = .ok pv) :
    pv.Name = options.PVName ∧
    pv.PersistentVolumeReclaimPolicy = options.PersistentVolumeReclaimPolicy ∧
    pv.AccessModes = options.AccessModes ∧
    pv.Capacity = [("storage", (options.Requests.lookup "storage").getD default)] ∧
    (∀ q, options.Requests.lookup "storage" = some q → pv.Capacity = [("storage", q)]) ∧
    pv.ISCSI = some
      { TargetPortal :=
          (createVolume getenv (Provision table getenv p options).provisioner
            options.PVName).server
        IQN :=
          (createVolume getenv (Provision table getenv p options).provisioner
            options.PVName).path
        Lun := 0, FSType := "ext3", ReadOnly := false } := by
  obtain ⟨cfg, hcfg, hsel⟩ := Provision_ok table getenv p options pv h
  rw [Provision_resolved table getenv p options cfg hcfg hsel] at h ⊢
  simp only [Except.ok.injEq] at h
  subst h
  refine ⟨rfl, rfl, rfl, rfl, ?_, rfl⟩
  intro q hq
  simp only [ResourceStorage, hq, Option.getD_some]

/-- Witness of C13: the descriptor of the example request. -/
theorem C13_descriptor_format_witness :
    ("pv-1" : String) = exampleRequest.PVName ∧
    (1 : Nat) = exampleRequest.PersistentVolumeReclaimPolicy ∧
    [(0 : Nat)] = exampleRequest.AccessModes ∧
    [("storage", (5 : Nat))] =
      [("storage", (exampleRequest.Requests.lookup "storage").getD default)] :=
  have h := C13_descriptor_format id emptyEnv exampleProvisioner exampleRequest
    { Name := "pv-1", Annotations := [("glusterBlockProvisionerIdentity", "uid-1")],
      PersistentVolumeReclaimPolicy := 1, AccessModes := [0],
      Capacity := [("storage", 5)],
      ISCSI := some { TargetPortal := "", IQN := "", Lun := 0, FSType := "ext3",
                      ReadOnly := false } } rfl
  ⟨h.1, h.2.1, h.2.2.1, h.2.2.2.1⟩

/-- C14: round trip of ownership.  The annotation
`glusterBlockProvisionerIdentity` of a volume returned by `Provision` is the
identity of the provisioner, so `Delete` of the volume by that provisioner,
before or after the call, returns nil, and `Delete` by a provisioner with
another identity returns the ignorable error. -/
theorem C14_ownership_round_trip {Q M P : Type} [Inhabited Q] (table : Char → Char)
    (getenv : String → String) (p : glusterBlockProvisioner) (options : VolumeOptions Q M P)
    (pv : PersistentVolume Q M P)
    (h : (Provision table getenv p options).result = .ok pv) :
    pv.Annotations.lookup "glusterBlockProvisionerIdentity" = some p.identity ∧
    Delete p pv = none ∧
    Delete (Provision table getenv p options).provisioner pv = none ∧
    (∀ q : glusterBlockProvisioner, q.identity ≠ p.identity →
      Delete q pv = some (.ignored "identity annotation on PV does not match ours") ∧
      Error.isIgnored (.ignored "identity annotation on PV does not match ours") = true) := by
  obtain ⟨cfg, hcfg, hsel⟩ := Provision_ok table getenv p options pv h
  rw [Provision_resolved table getenv p options cfg hcfg hsel] at h ⊢
  simp only [Except.ok.injEq] at h
  subst h
  have hl : List.lookup "glusterBlockProvisionerIdentity"
      [("glusterBlockProvisionerIdentity", p.identity)] = some p.identity := by
    simp [List.lookup]
  refine ⟨hl, ?_, ?_, ?_⟩
  · simp only [Delete, hl, ne_eq, not_true_eq_false, if_false]
  · simp only [Delete, hl, ne_eq, not_true_eq_false, if_false]
  · intro q hq
    refine ⟨?_, rfl⟩
    simp only [Delete, hl, ne_eq]
    rw [if_pos (fun heq => hq heq.symm)]

/-- Witness of C14: the volume of the example request is deleted by its
provisioner `uid-1`. -/
theorem C14_ownership_round_trip_witness :
    Delete (Q := Nat) (M := Nat) (P := Nat) exampleProvisioner
      { Name := "pv-1", Annotations := [("glusterBlockProvisionerIdentity", "uid-1")],
        PersistentVolumeReclaimPolicy := 1, AccessModes := [0],
        Capacity := [("storage", 5)],
        ISCSI := some { TargetPortal := "", IQN := "", Lun := 0, FSType := "ext3",
                        ReadOnly := false } } = none :=
  (C14_ownership_round_trip id emptyEnv exampleProvisioner exampleRequest _ rfl).2.1

/-! ## Secret resolution -/

/-- The two forms of `parseSecret` agree. -/
theorem parseSecret_eq_results (secretNamespace secretName : String)
    (kubeClient : Option Client) :
    parseSecret secretNamespace secretName kubeClient =
      match parseSecretResults secretNamespace secretName kubeClient with
      | (_, some err) => .error err
      | (value, none) => .ok value := by
  unfold parseSecret parseSecretResults
  cases GetSecretForPV secretNamespace secretName "glusterblock" kubeClient with
  | error err => rfl
  | ok secretMap => by_cases h : secretMap.length = 0 <;> simp [h]

/-- The map that `GetSecretForPV` builds from a secret of the right type. -/
theorem GetSecretForPV_ok (secretNamespace secretName : String) (c : Client) (s : Secret)
    (hget : c.getSecret secretNamespace secretName = .ok s) (ht : s.type = "glusterblock") :
    GetSecretForPV secretNamespace secretName "glusterblock" (some c) = .ok s.Data := by
  simp [GetSecretForPV, hget, ht]

/-- The loop over a non-empty map returns one of its values. -/
theorem secretLoop_mem :
    ∀ (data : List (String × String)) (secret : String), data ≠ [] →
      secretLoop data secret ∈ data.map Prod.snd := by
  intro data
  induction data with
  | nil => intro _ h; exact absurd rfl h
  | cons kv rest ih =>
    intro secret _
    obtain ⟨k, v⟩ := kv
    simp only [secretLoop]
    by_cases hk : k = secretKeyName
    · simp [hk]
    · simp only [hk, if_false]
      cases rest with
      | nil => simp [secretLoop]
      | cons kv2 rest2 =>
        exact List.mem_cons_of_mem _ (ih v (List.cons_ne_nil _ _))

/-- The loop over a map with an entry under the canonical key returns the
value of that entry. -/
theorem secretLoop_key :
    ∀ (data : List (String × String)) (secret w : String),
      (data.map Prod.fst).Nodup → (secretKeyName, w) ∈ data → secretLoop data secret = w := by
  intro data
  induction data with
  | nil => intro _ _ _ h; cases h
  | cons kv rest ih =>
    intro secret w hnd hm
    obtain ⟨k, v⟩ := kv
    simp only [List.map_cons, List.nodup_cons] at hnd
    simp only [secretLoop]
    rcases List.mem_cons.mp hm with heq | hin
    · simp only [Prod.mk.injEq] at heq
      simp [← heq.1, heq.2]
    · have hk : k ≠ secretKeyName := by
        intro hk
        exact hnd.1 (hk ▸ List.mem_map.2 ⟨(secretKeyName, w), hin, rfl⟩)
      simp only [hk, if_false]
      exact ih v w hnd.2 hin

/-- The loop over a non-empty map without canonical key returns the value of
the entry iterated last. -/
theorem secretLoop_last :
    ∀ (data : List (String × String)) (secret : String) (hne : data ≠ []),
      (∀ kv ∈ data, kv.1 ≠ secretKeyName) → secretLoop data secret = (data.getLast hne).2 := by
  intro data
  induction data with
  | nil => intro _ h; exact absurd rfl h
  | cons kv rest ih =>
    intro secret hne hno
    obtain ⟨k, v⟩ := kv
    have hk : k ≠ secretKeyName := hno (k, v) (List.mem_cons_self _ _)
    simp only [secretLoop, hk, if_false]
    cases rest with
    | nil => simp [secretLoop]
    | cons kv2 rest2 =>
      rw [ih v (List.cons_ne_nil _ _) (fun kv hkv => hno kv (List.mem_cons_of_mem _ hkv))]
      simp [List.getLast_cons]

/-- C15: for every non-empty secret mapping fetched from the store and every
order in which it is iterated, `parseSecret` succeeds with a value of the
mapping; with an entry under the canonical key `key` the result is the value
of that entry in every order, and without canonical key it is the value of
the entry iterated last. -/
theorem C15_secret_selection (secretNamespace secretName : String) (c : Client)
    (mapping order : List (String × String))
    (hperm : order.Perm mapping) (hne : mapping ≠ [])
    (hget : c.getSecret secretNamespace secretName =
      .ok { type := "glusterblock", Data := order }) :
    ∃ v, parseSecret secretNamespace secretName (some c) = .ok v ∧
      v ∈ mapping.map Prod.snd ∧
      (∀ w, (mapping.map Prod.fst).Nodup → ("key", w) ∈ mapping → v = w) ∧
      ((∀ kv ∈ mapping, kv.1 ≠ "key") → ∀ h : order ≠ [], v = (order.getLast h).2) := by
  have hone : order ≠ [] := fun h => hne (List.Perm.eq_nil (h ▸ hperm.symm))
  have hlen : ¬ order.length = 0 := fun h => hone (List.length_eq_zero.1 h)
  refine ⟨secretLoop order "", ?_, ?_, ?_, ?_⟩
  · simp only [parseSecret, GetSecretForPV_ok secretNamespace secretName c _ hget rfl, hlen,
      if_false]
  · exact (hperm.map Prod.snd).mem_iff.1 (secretLoop_mem order "" hone)
  · intro w hnd hm
    exact secretLoop_key order "" w ((hperm.map Prod.fst).nodup_iff.2 hnd)
      (hperm.mem_iff.2 hm)
  · intro hno h
    exact secretLoop_last order "" h (fun kv hkv => hno kv (hperm.mem_iff.1 hkv))

/-- Witness of C15: the mapping `a=x, key=topsecret` iterated with `key` last. -/
theorem C15_secret_selection_witness :
    ∃ v, parseSecret "ns" "s"
        (some (storeOf { type := "glusterblock", Data := [("a", "x"), ("key", "topsecret")] }))
        = .ok v ∧
      v ∈ [("key", "topsecret"), ("a", "x")].map Prod.snd ∧
      (∀ w, ([("key", "topsecret"), ("a", "x")].map Prod.fst).Nodup →
        ("key", w) ∈ [("key", "topsecret"), ("a", "x")] → v = w) ∧
      ((∀ kv ∈ [("key", "topsecret"), ("a", "x")], kv.1 ≠ "key") →
        ∀ h : [("a", "x"), ("key", "topsecret")] ≠ [],
          v = ([("a", "x"), ("key", "topsecret")].getLast h).2) :=
  C15_secret_selection "ns" "s"
    (storeOf { type := "glusterblock", Data := [("a", "x"), ("key", "topsecret")] })
    [("key", "topsecret"), ("a", "x")] [("a", "x"), ("key", "topsecret")]
    (List.Perm.swap _ _ _) (by decide) rfl

/-- C16: secret resolution fails closed.  `parseSecret` returns an error and
the empty string when the store handle is nil, when the fetch fails, when the
declared type of the fetched secret is not `glusterblock`, and when its data
is empty; in every other case it succeeds.  The nil handle, the fetch failure
and the type failure are wrapped with the namespace and the name of the
secret. -/
theorem C16_secret_fails_closed (secretNamespace secretName : String)
    (kubeClient : Option Client) :
    (kubeClient = none →
      parseSecretResults secretNamespace secretName kubeClient =
        ("", some (.failedGetSecret secretNamespace secretName .cannotGetKubeClient))) ∧
    (∀ c err, kubeClient = some c → c.getSecret secretNamespace secretName = .error err →
      parseSecretResults secretNamespace secretName kubeClient =
        ("", some (.failedGetSecret secretNamespace secretName err))) ∧
    (∀ c s, kubeClient = some c → c.getSecret secretNamespace secretName = .ok s →
      s.type ≠ "glusterblock" →
      parseSecretResults secretNamespace secretName kubeClient =
        ("", some (.failedGetSecret secretNamespace secretName
          (.cannotGetSecretOfType "glusterblock")))) ∧
    (∀ c s, kubeClient = some c → c.getSecret secretNamespace secretName = .ok s →
      s.type = "glusterblock" → s.Data = [] →
      parseSecretResults secretNamespace secretName kubeClient = ("", some .emptySecretMap)) ∧
    (∀ c s, kubeClient = some c → c.getSecret secretNamespace secretName = .ok s →
      s.type = "glusterblock" → s.Data ≠ [] →
      ∃ v, parseSecretResults secretNamespace secretName kubeClient = (v, none) ∧
        parseSecret secretNamespace secretName kubeClient = .ok v) ∧
    (∀ e, (parseSecretResults secretNamespace secretName kubeClient).2 = some e →
      (parseSecretResults secretNamespace secretName kubeClient).1 = "" ∧
      parseSecret secretNamespace secretName kubeClient = .error e) := by
  refine ⟨?_, ?_, ?_, ?_, ?_, ?_⟩
  · intro h
    subst h
    rfl
  · intro c err h hget
    subst h
    simp only [parseSecretResults, GetSecretForPV, hget]
  · intro c s h hget ht
    subst h
    simp only [parseSecretResults, GetSecretForPV, hget, ne_eq, ht, not_false_eq_true, if_true]
  · intro c s h hget ht hd
    subst h
    simp [parseSecretResults, GetSecretForPV_ok secretNamespace secretName c s hget ht, hd]
  · intro c s h hget ht hd
    subst h
    have hlen : ¬ s.Data.length = 0 := fun hl => hd (List.length_eq_zero.1 hl)
    refine ⟨secretLoop s.Data "", ?_, ?_⟩
    · simp only [parseSecretResults, GetSecretForPV_ok secretNamespace secretName c s hget ht,
        hlen, if_false]
    · simp only [parseSecret, GetSecretForPV_ok secretNamespace secretName c s hget ht,
        hlen, if_false]
  · intro e he
    rw [parseSecret_eq_results]
    unfold parseSecretResults at he ⊢
    generalize GetSecretForPV secretNamespace secretName "glusterblock" kubeClient = r at he ⊢
    cases r with
    | error err =>
      simp only [Option.some.injEq] at he
      simp [he]
    | ok secretMap =>
      by_cases hl : secretMap.length = 0
      · simp only [hl, if_true, Option.some.injEq] at he
        simp [hl, he]
      · simp only [hl, if_false] at he
        cases he

/-- Witness of C16: without store the resolution of `ns/s` fails with the
wrapped error, and the example store, asked for a secret it does not hold,
fails with the wrapped store error. -/
theorem C16_secret_fails_closed_witness :
    parseSecretResults "ns" "s" none =
      ("", some (.failedGetSecret "ns" "s" .cannotGetKubeClient)) ∧
    parseSecretResults "ns" "other" (some exampleStore) =
      ("", some (.failedGetSecret "ns" "other" (.store "not found"))) :=
  ⟨(C16_secret_fails_closed "ns" "s" none).1 rfl,
   (C16_secret_fails_closed "ns" "other" (some exampleStore)).2.1 exampleStore
      (.store "not found") rfl rfl⟩

/-! ## Lower-cased keys -/

/-- Lower-casing an upper-case ASCII rune twice is lower-casing it once. -/
theorem runeToLower_upper (table : Char → Char) (c : Char)
    (h1 : 65 ≤ c.toNat) (h2 : c.toNat ≤ 90) :
    runeToLower table (runeToLower table c) = runeToLower table c := by
  have hc : c = Char.ofNat c.toNat := (Char.ofNat_toNat c).symm
  generalize c.toNat = n at hc h1 h2
  subst hc
  interval_cases n <;> rfl

/-- Lower-casing is idempotent as soon as the table yields runes that
lower-casing leaves alone. -/
theorem lowerIdempotent_of_table (table : Char → Char)
    (htab : ∀ c : Char, 127 < c.toNat → runeToLower table (table c) = table c) :
    lowerIdempotent table := by
  have hrune : ∀ c, runeToLower table (runeToLower table c) = runeToLower table c := by
    intro c
    by_cases h : c.toNat ≤ 127
    · by_cases hu : 65 ≤ c.toNat ∧ c.toNat ≤ 90
      · exact runeToLower_upper table c hu.1 hu.2
      · have hc : runeToLower table c = c := by simp [runeToLower, h, hu]
        rw [hc, hc]
    · have hc : runeToLower table c = table c := by simp [runeToLower, h]
      rw [hc]
      exact htab c (by omega)
  intro s
  simp only [ToLower, List.map_map]
  exact congrArg String.mk (List.map_congr_left (fun c _ => hrune c))

/-- Lower-casing with the identity table is idempotent. -/
theorem lowerIdempotent_id : lowerIdempotent id :=
  lowerIdempotent_of_table id (fun c h => by
    have hc : ¬ c.toNat ≤ 127 := by omega
    simp [runeToLower, hc])

/-- One iteration on the lower-cased key does what it does on the key, and
names the lower-cased key in its error. -/
theorem paramStep_lower (table : Char → Char) (hidem : lowerIdempotent table)
    (st : ParamState) (k v : String) :
    paramStep table st (ToLower table k) v =
      match paramStep table st k v with
      | .ok st' => .ok st'
      | .error e => .error (e.lowerKey table) := by
  unfold paramStep
  simp only [hidem k]
  split_ifs <;> try rfl
  cases Atoi v <;> rfl

/-- The loop on the mapping with lower-cased keys. -/
theorem paramLoop_lower (table : Char → Char) (hidem : lowerIdempotent table) :
    ∀ (params : List (String × String)) (st : ParamState),
      paramLoop table (lowerKeys table params) st =
        match paramLoop table params st with
        | .ok st' => .ok st'
        | .error e => .error (e.lowerKey table) := by
  intro params
  induction params with
  | nil => intro st; rfl
  | cons kv rest ih =>
    intro st
    obtain ⟨k, v⟩ := kv
    simp only [lowerKeys, List.map_cons, paramLoop, paramStep_lower table hidem st k v]
    cases paramStep table st k v with
    | error e => rfl
    | ok s1 => exact ih s1

/-- `parseClassParameters` on the mapping with lower-cased keys, iterated in
the same order. -/
theorem parse_lower (table : Char → Char) (hidem : lowerIdempotent table)
    (params : List (String × String)) (kubeclient : Option Client) :
    parseClassParameters table (lowerKeys table params) kubeclient =
      match parseClassParameters table params kubeclient with
      | .ok cfg => .ok cfg
      | .error e => .error (e.lowerKey table) := by
  unfold parseClassParameters
  rw [paramLoop_lower table hidem params {}]
  cases hl : paramLoop table params {} with
  | error e => rfl
  | ok st =>
    simp only
    cases hf : finishParameters st kubeclient with
    | ok cfg => rfl
    | error e =>
      simp only
      unfold finishParameters at hf
      simp only at hf
      split_ifs at hf
      · cases hf; rfl
      · split at hf
        · cases hf
        · rename_i err hp
          cases hf
          unfold parseSecret at hp
          split at hp
          · cases hp; rfl
          · split_ifs at hp
            cases hp; rfl
      · cases hf; rfl

/-! ## Order of iteration -/

/-- Effect of one iteration that does not return on the cluster id. -/
theorem paramStep_clusterId (table : Char → Char) (st st' : ParamState) (k v : String)
    (h : paramStep table st k v = .ok st') :
    st'.cfg.clusterId =
      (if ToLower table k = "clusterid" ∧ v ≠ "" then v else st.cfg.clusterId) := by
  unfold paramStep at h
  simp only [ne_eq, len_eq_zero_iff] at h
  split_ifs at h with h1 h2 h3 h4 h5 h6 h7 h8 h9
  all_goals first
    | (cases h; simp_all)
    | (split at h <;> cases h; simp_all)

/-- Whether an iteration returns does not depend on the locals. -/
theorem paramStep_indep (table : Char → Char) (st st' st2 : ParamState) (k v : String)
    (h : paramStep table st k v = .ok st') : ∃ s, paramStep table st2 k v = .ok s := by
  cases hs : paramStep table st2 k v with
  | ok s => exact ⟨s, rfl⟩
  | error e =>
    rcases paramStep_error table st2 k v e hs with ⟨hk, -⟩ | ⟨hk, hv, -⟩
    · rw [paramStep_unrecognised table st k v hk] at h
      cases h
    · rw [paramStep_hacount_bad table st k v hk hv] at h
      cases h

/-- Two states of the locals with the same fields are equal. -/
theorem ParamState_ext (a b : ParamState)
    (h1 : a.cfg.url = b.cfg.url) (h2 : a.cfg.user = b.cfg.user)
    (h3 : a.cfg.userKey = b.cfg.userKey) (h4 : a.cfg.secretName = b.cfg.secretName)
    (h5 : a.cfg.secretNamespace = b.cfg.secretNamespace)
    (h6 : a.authEnabled = b.authEnabled) (h7 : a.haCount = b.haCount)
    (h8 : a.cfg.haCount = b.cfg.haCount) (h9 : a.cfg.secretValue = b.cfg.secretValue)
    (h10 : a.cfg.opMode = b.cfg.opMode) (h11 : a.cfg.scriptPath = b.cfg.scriptPath)
    (h12 : a.cfg.clusterId = b.cfg.clusterId) : a = b := by
  obtain ⟨⟨a1, a2, a3, a4, a5, a6, a7, a8, a9, a10⟩, a11, a12⟩ := a
  obtain ⟨⟨b1, b2, b3, b4, b5, b6, b7, b8, b9, b10⟩, b11, b12⟩ := b
  simp only at h1 h2 h3 h4 h5 h6 h7 h8 h9 h10 h11 h12
  subst h1 h2 h3 h4 h5 h6 h7 h8 h9 h10 h11 h12
  rfl

/-- Two iterations on keys that differ after lower-casing can be exchanged. -/
theorem paramStep_comm (table : Char → Char) (st s1 s2 : ParamState) (k1 v1 k2 v2 : String)
    (hne : ToLower table k1 ≠ ToLower table k2)
    (h1 : paramStep table st k1 v1 = .ok s1) (h2 : paramStep table s1 k2 v2 = .ok s2) :
    ∃ t1, paramStep table st k2 v2 = .ok t1 ∧ paramStep table t1 k1 v1 = .ok s2 := by
  obtain ⟨t1, ht1⟩ := paramStep_indep table s1 s2 st k2 v2 h2
  obtain ⟨t2, ht2⟩ := paramStep_indep table st s1 t1 k1 v1 h1
  refine ⟨t1, ht1, ?_⟩
  rw [ht2]
  have a1 := paramStep_ok table st s1 k1 v1 h1
  have a2 := paramStep_ok table s1 s2 k2 v2 h2
  have b1 := paramStep_ok table st t1 k2 v2 ht1
  have b2 := paramStep_ok table t1 t2 k1 v1 ht2
  have c1 := paramStep_clusterId table st s1 k1 v1 h1
  have c2 := paramStep_clusterId table s1 s2 k2 v2 h2
  have d1 := paramStep_clusterId table st t1 k2 v2 ht1
  have d2 := paramStep_clusterId table t1 t2 k1 v1 ht2
  obtain ⟨a1_1, a1_2, a1_3, a1_4, a1_5, a1_6, a1_7, a1_8, a1_9, a1_10, a1_11⟩ := a1
  obtain ⟨a2_1, a2_2, a2_3, a2_4, a2_5, a2_6, a2_7, a2_8, a2_9, a2_10, a2_11⟩ := a2
  obtain ⟨b1_1, b1_2, b1_3, b1_4, b1_5, b1_6, b1_7, b1_8, b1_9, b1_10, b1_11⟩ := b1
  obtain ⟨b2_1, b2_2, b2_3, b2_4, b2_5, b2_6, b2_7, b2_8, b2_9, b2_10, b2_11⟩ := b2
  congr 1
  apply ParamState_ext
  · rw [b2_1, b1_1, a2_1, a1_1]; split_ifs <;> simp_all
  · rw [b2_2, b1_2, a2_2, a1_2]; split_ifs <;> simp_all
  · rw [b2_3, b1_3, a2_3, a1_3]; split_ifs <;> simp_all
  · rw [b2_4, b1_4, a2_4, a1_4]; split_ifs <;> simp_all
  · rw [b2_5, b1_5, a2_5, a1_5]; split_ifs <;> simp_all
  · rw [b2_6, b1_6, a2_6, a1_6]; split_ifs <;> simp_all
  · rw [b2_7, b1_7, a2_7, a1_7]; split_ifs <;> simp_all
  · rw [b2_8, b1_8, a2_8, a1_8]
  · rw [b2_9, b1_9, a2_9, a1_9]
  · rw [b2_10, b1_10, a2_10, a1_10]
  · rw [b2_11, b1_11, a2_11, a1_11]
  · rw [d2, d1, c2, c1]; split_ifs <;> simp_all

/-- Distinctness of the lower-cased keys does not depend on the order. -/
theorem distinctLowered_perm (table : Char → Char) {l1 l2 : List (String × String)}
    (hp : l1.Perm l2) : distinctLowered table l1 ↔ distinctLowered table l2 :=
  (hp.map (fun kv : String × String => ToLower table kv.1)).nodup_iff

/-- Lower-casing the keys keeps them distinct after lower-casing. -/
theorem distinctLowered_lowerKeys (table : Char → Char) (hidem : lowerIdempotent table)
    (params : List (String × String)) (h : distinctLowered table params) :
    distinctLowered table (lowerKeys table params) := by
  unfold distinctLowered lowerKeys at *
  rw [List.map_map]
  have : ((fun kv : String × String => ToLower table kv.1) ∘
      fun kv : String × String => (ToLower table kv.1, kv.2)) =
      fun kv : String × String => ToLower table kv.1 := by
    funext kv
    exact hidem kv.1
  rw [this]
  exact h

/-- A loop that runs to its end over keys that are distinct after lower-casing
ends in the same state in every order of iteration. -/
theorem paramLoop_perm (table : Char → Char) {l1 l2 : List (String × String)}
    (hp : l1.Perm l2) :
    distinctLowered table l1 → ∀ st s, paramLoop table l1 st = .ok s →
      paramLoop table l2 st = .ok s := by
  induction hp with
  | nil => intro _ st s h; exact h
  | cons x _ ih =>
    intro hnd st s h
    obtain ⟨k, v⟩ := x
    simp only [paramLoop] at h ⊢
    cases hs : paramStep table st k v with
    | error e => rw [hs] at h; cases h
    | ok s1 =>
      rw [hs] at h
      simp only [distinctLowered, List.map_cons, List.nodup_cons] at hnd
      exact ih hnd.2 s1 s h
  | swap x y l =>
    intro hnd st s h
    obtain ⟨k1, v1⟩ := x
    obtain ⟨k2, v2⟩ := y
    simp only [distinctLowered, List.map_cons, List.nodup_cons, List.mem_cons, not_or] at hnd
    simp only [paramLoop] at h ⊢
    cases hs : paramStep table st k2 v2 with
    | error e => rw [hs] at h; cases h
    | ok s1 =>
      rw [hs] at h
      simp only at h
      cases hs2 : paramStep table s1 k1 v1 with
      | error e => rw [hs2] at h; cases h
      | ok s2 =>
        rw [hs2] at h
        obtain ⟨t1, ht1, ht2⟩ := paramStep_comm table st s1 s2 k2 v2 k1 v1 hnd.1.1 hs hs2
        simp only [ht1, ht2]
        exact h
  | trans hp1 _ ih1 ih2 =>
    intro hnd st s h
    exact ih2 ((distinctLowered_perm table hp1).1 hnd) st s (ih1 hnd st s h)

/-- A resolution that succeeds on keys that are distinct after lower-casing
gives the same config in every order of iteration. -/
theorem parse_perm (table : Char → Char) {l1 l2 : List (String × String)}
    (hp : l1.Perm l2) (hnd : distinctLowered table l1) (kubeclient : Option Client)
    (cfg : provisionerConfig) (h : parseClassParameters table l1 kubeclient = .ok cfg) :
    parseClassParameters table l2 kubeclient = .ok cfg := by
  obtain ⟨st, hst, hfin⟩ := loop_of_parse_ok table l1 kubeclient cfg h
  simp only [parseClassParameters, paramLoop_perm table hp hnd {} st hst, hfin]

/-- C17: parameter keys are matched case-insensitively.  On the mapping with
every key lower-cased, iterated in the same order, `parseClassParameters`
returns the same config, or fails with the same error, which names the
lower-cased key where it names a key.  When the keys stay pairwise distinct
after lower-casing, the mapping resolves to a config in one order of
iteration exactly when the lower-cased mapping resolves to that config in any
order.  `RestURL` and `HACount` lower-case to `resturl` and `hacount`. -/
theorem C17_keys_case_insensitive (table : Char → Char) (hidem : lowerIdempotent table)
    (params : List (String × String)) (kubeclient : Option Client) :
    (parseClassParameters table (lowerKeys table params) kubeclient =
      match parseClassParameters table params kubeclient with
      | .ok cfg => .ok cfg
      | .error e => .error (e.lowerKey table)) ∧
    (distinctLowered table params →
      ∀ order1 order2 : List (String × String), order1.Perm params →
        order2.Perm (lowerKeys table params) → ∀ cfg,
        (parseClassParameters table order1 kubeclient = .ok cfg ↔
          parseClassParameters table order2 kubeclient = .ok cfg)) ∧
    ToLower table "RestURL" = "resturl" ∧ ToLower table "HACount" = "hacount" := by
  refine ⟨parse_lower table hidem params kubeclient, ?_, rfl, rfl⟩
  intro hnd order1 order2 hp1 hp2 cfg
  have hnd1 := (distinctLowered_perm table hp1).2 hnd
  have hndl := distinctLowered_lowerKeys table hidem params hnd
  have hnd2 := (distinctLowered_perm table hp2).2 hndl
  have hlow := parse_lower table hidem params kubeclient
  constructor
  · intro h
    have h1 := parse_perm table hp1 hnd1 kubeclient cfg h
    rw [h1] at hlow
    exact parse_perm table hp2.symm hndl kubeclient cfg hlow
  · intro h
    have h2 := parse_perm table hp2 hnd2 kubeclient cfg h
    rw [h2] at hlow
    have h1 : parseClassParameters table params kubeclient = .ok cfg := by
      cases hr : parseClassParameters table params kubeclient with
      | error e => rw [hr] at hlow; cases hlow
      | ok c => rw [hr] at hlow; exact hlow.symm
    exact parse_perm table hp1.symm hnd kubeclient cfg h1

/-- Witness of C17: the mapping `RestURL, HACount=0` resolves as its
lower-cased form does, also in the other order. -/
theorem C17_keys_case_insensitive_witness :
    parseClassParameters id [("RestURL", "http://heketi:8080"), ("HACount", "0")] none =
      .ok { url := "http://heketi:8080", haCount := 3 } ∧
    parseClassParameters id [("hacount", "0"), ("resturl", "http://heketi:8080")] none =
      .ok { url := "http://heketi:8080", haCount := 3 } :=
  ⟨rfl,
   ((C17_keys_case_insensitive id lowerIdempotent_id
      [("RestURL", "http://heketi:8080"), ("HACount", "0")] none).2.1 (by decide)
      [("RestURL", "http://heketi:8080"), ("HACount", "0")]
      [("hacount", "0"), ("resturl", "http://heketi:8080")]
      (List.Perm.refl _) (List.Perm.swap _ _ _)
      { url := "http://heketi:8080", haCount := 3 }).1 rfl⟩

/-! ## State of the provisioner -/

/-- C18 (counterexample): the example provisioner holds the zero config before
`Provision` and the config resolved from the request after it, when the call
succeeds and also when it fails on the selector. -/
theorem C18_counterexample :
    exampleProvisioner.provConfig = {} ∧
    (Provision id emptyEnv exampleProvisioner exampleRequest).provisioner.provConfig =
      { url := "http://heketi:8080" } ∧
    (Provision id emptyEnv exampleProvisioner
      { exampleRequest with Selector := some {} }).provisioner.provConfig =
      { url := "http://heketi:8080" } ∧
    ({ url := "http://heketi:8080" } : provisionerConfig) ≠ {} :=
  ⟨rfl, rfl, rfl, by decide⟩

/-- C18 (amended): whether `Provision` succeeds or fails, the client and the
identity of the provisioner after the call are those before the call; the
stored config is unchanged when the parameters of the request do not resolve,
and is the config resolved from them when they do. -/
theorem C18_provisioner_state {Q M P : Type} [Inhabited Q] (table : Char → Char)
    (getenv : String → String) (p : glusterBlockProvisioner) (options : VolumeOptions Q M P) :
    (Provision table getenv p options).provisioner.client = p.client ∧
    (Provision table getenv p options).provisioner.identity = p.identity ∧
    (∀ e, parseClassParameters table options.Parameters p.client = .error e →
      (Provision table getenv p options).provisioner.provConfig = p.provConfig) ∧
    (∀ cfg, parseClassParameters table options.Parameters p.client = .ok cfg →
      (Provision table getenv p options).provisioner.provConfig = cfg) := by
  have key : ∀ cfg, parseClassParameters table options.Parameters p.client = .ok cfg →
      (Provision table getenv p options).provisioner = { p with provConfig := cfg } := by
    intro cfg hcfg
    unfold Provision
    simp only [hcfg]
    split_ifs
    · rfl
    · simp only [createVolume_err]
  refine ⟨?_, ?_, ?_, ?_⟩
  · cases hcfg : parseClassParameters table options.Parameters p.client with
    | error e => simp only [Provision, hcfg]
    | ok cfg => rw [key cfg hcfg]
  · cases hcfg : parseClassParameters table options.Parameters p.client with
    | error e => simp only [Provision, hcfg]
    | ok cfg => rw [key cfg hcfg]
  · intro e he
    simp only [Provision, he]
  · intro cfg hcfg
    rw [key cfg hcfg]

/-- Witness of C18 (amended): the identity of the example provisioner after a
call. -/
theorem C18_provisioner_state_witness :
    (Provision id emptyEnv exampleProvisioner exampleRequest).provisioner.identity = "uid-1" ∧
    (Provision id emptyEnv exampleProvisioner exampleRequest).provisioner.provConfig =
      { url := "http://heketi:8080" } :=
  ⟨(C18_provisioner_state id emptyEnv exampleProvisioner exampleRequest).2.1,
   (C18_provisioner_state id emptyEnv exampleProvisioner exampleRequest).2.2.2
      { url := "http://heketi:8080" } rfl⟩

/-- C19: every config returned by `parseClassParameters` has an empty `opMode`
and an empty `scriptPath`; so in every successful `Provision` the call of
`createVolume` does not take its `script` branch and returns `("", "", nil)`,
no script is run, and the returned volume has an empty `TargetPortal` and an
empty `IQN`. -/
theorem C19_script_branch_unreachable {Q M P : Type} [Inhabited Q] (table : Char → Char)
    (getenv : String → String) (p : glusterBlockProvisioner) (options : VolumeOptions Q M P) :
    (∀ params kubeclient cfg, parseClassParameters table params kubeclient = .ok cfg →
      cfg.opMode = "" ∧ cfg.scriptPath = "") ∧
    (∀ pv, (Provision table getenv p options).result = .ok pv →
      createVolume getenv (Provision table getenv p options).provisioner options.PVName =
        { server := "", path := "", err := none, trace := [.createVolume options.PVName] } ∧
      (Provision table getenv p options).trace = [.createVolume options.PVName] ∧
      pv.ISCSI = some
        { TargetPortal := "", IQN := "", Lun := 0, FSType := "ext3", ReadOnly := false }) := by
  have hmode : ∀ params kubeclient cfg,
      parseClassParameters table params kubeclient = .ok cfg →
      cfg.opMode = "" ∧ cfg.scriptPath = "" := by
    intro params kubeclient cfg hcfg
    obtain ⟨st, hst, hfin⟩ := loop_of_parse_ok table params kubeclient cfg hcfg
    obtain ⟨-, -, -, -, -, -, -, -, -, h10, h11⟩ := paramLoop_ok table params st hst
    obtain ⟨-, -, -, ho, hs⟩ := finish_ok st kubeclient cfg hfin
    exact ⟨ho.trans h10, hs.trans h11⟩
  refine ⟨hmode, ?_⟩
  intro pv h
  obtain ⟨cfg, hcfg, hsel⟩ := Provision_ok table getenv p options pv h
  have hcv : createVolume getenv { p with provConfig := cfg } options.PVName =
      { server := "", path := "", err := none, trace := [.createVolume options.PVName] } := by
    simp [createVolume, (hmode _ _ cfg hcfg).1]
  rw [Provision_resolved table getenv p options cfg hcfg hsel] at h ⊢
  simp only [Except.ok.injEq] at h
  subst h
  simp only [hcv, and_self]

/-- Witness of C19: the example request, in an environment that defines
`SERVER` and `IQN`, still yields an empty portal and an empty IQN. -/
theorem C19_script_branch_unreachable_witness :
    (Provision id (fun _ => "set") exampleProvisioner exampleRequest).trace =
      [.createVolume "pv-1"] ∧
    (Provision id (fun _ => "set") exampleProvisioner exampleRequest).result =
      .ok { Name := "pv-1", Annotations := [("glusterBlockProvisionerIdentity", "uid-1")],
            PersistentVolumeReclaimPolicy := 1, AccessModes := [0],
            Capacity := [("storage", 5)],
            ISCSI := some { TargetPortal := "", IQN := "", Lun := 0, FSType := "ext3",
                            ReadOnly := false } } :=
  ⟨((C19_script_branch_unreachable id (fun _ => "set") exampleProvisioner exampleRequest).2
      _ rfl).2.1, rfl⟩

/-! ## The authentication switch -/

/-- `setAuth` on a mapping with a first entry. -/
theorem setAuth_cons (table : Char → Char) (w k v : String) (rest : List (String × String)) :
    setAuth table w ((k, v) :: rest) =
      (k, if ToLower table k = "restauthenabled" then w else v) :: setAuth table w rest := by
  unfold setAuth
  by_cases hk : ToLower table k = "restauthenabled" <;> simp [hk]

/-- The value supplied for `restauthenabled` after `setAuth`. -/
theorem supplied_setAuth (table : Char → Char) (w : String) :
    ∀ params : List (String × String),
      supplied table "restauthenabled" (setAuth table w params) =
        (supplied table "restauthenabled" params).map (fun _ => w) := by
  intro params
  induction params with
  | nil => rfl
  | cons kv rest ih =>
    obtain ⟨k, v⟩ := kv
    rw [setAuth_cons]
    simp only [supplied, ih]
    cases supplied table "restauthenabled" rest with
    | some u => rfl
    | none => by_cases hk : ToLower table k = "restauthenabled" <;> simp [hk]

/-- An iteration on a `restauthenabled` key changes only `authEnabled`. -/
theorem paramStep_auth (table : Char → Char) (st : ParamState) (k v : String)
    (hk : ToLower table k = "restauthenabled") :
    paramStep table st k v =
      .ok { st with authEnabled := decide (ToLower table v = "true") } := by
  simp [paramStep, hk]

/-- Two configs with the same fields are equal. -/
theorem provisionerConfig_ext (a b : provisionerConfig)
    (h1 : a.url = b.url) (h2 : a.user = b.user) (h3 : a.userKey = b.userKey)
    (h4 : a.opMode = b.opMode) (h5 : a.scriptPath = b.scriptPath)
    (h6 : a.secretNamespace = b.secretNamespace) (h7 : a.secretName = b.secretName)
    (h8 : a.secretValue = b.secretValue) (h9 : a.clusterId = b.clusterId)
    (h10 : a.haCount = b.haCount) : a = b := by
  obtain ⟨a1, a2, a3, a4, a5, a6, a7, a8, a9, a10⟩ := a
  obtain ⟨b1, b2, b3, b4, b5, b6, b7, b8, b9, b10⟩ := b
  simp only at h1 h2 h3 h4 h5 h6 h7 h8 h9 h10
  subst h1 h2 h3 h4 h5 h6 h7 h8 h9 h10
  rfl

/-- An iteration treats two states with the same config and the same local
`haCount` alike. -/
theorem paramStep_sim (table : Char → Char) (st st2 : ParamState) (k v : String)
    (hc : st.cfg = st2.cfg) (hh : st.haCount = st2.haCount) :
    (∃ a b, paramStep table st k v = .ok a ∧ paramStep table st2 k v = .ok b ∧
      a.cfg = b.cfg ∧ a.haCount = b.haCount) ∨
    (∃ e, paramStep table st k v = .error e ∧ paramStep table st2 k v = .error e) := by
  cases h1 : paramStep table st k v with
  | ok a =>
    obtain ⟨b, h2⟩ := paramStep_indep table st a st2 k v h1
    refine Or.inl ⟨a, b, rfl, h2, ?_, ?_⟩
    · obtain ⟨a_1, a_2, a_3, a_4, a_5, -, -, a_8, a_9, a_10, a_11⟩ :=
        paramStep_ok table st a k v h1
      obtain ⟨b_1, b_2, b_3, b_4, b_5, -, -, b_8, b_9, b_10, b_11⟩ :=
        paramStep_ok table st2 b k v h2
      have a_12 := paramStep_clusterId table st a k v h1
      have b_12 := paramStep_clusterId table st2 b k v h2
      apply provisionerConfig_ext
      · rw [a_1, b_1, hc]
      · rw [a_2, b_2, hc]
      · rw [a_3, b_3, hc]
      · rw [a_10, b_10, hc]
      · rw [a_11, b_11, hc]
      · rw [a_5, b_5, hc]
      · rw [a_4, b_4, hc]
      · rw [a_9, b_9, hc]
      · rw [a_12, b_12, hc]
      · rw [a_8, b_8, hc]
    · obtain ⟨-, -, -, -, -, -, a_7, -⟩ := paramStep_ok table st a k v h1
      obtain ⟨-, -, -, -, -, -, b_7, -⟩ := paramStep_ok table st2 b k v h2
      rw [a_7, b_7, hh]
  | error e =>
    refine Or.inr ⟨e, rfl, ?_⟩
    rcases paramStep_error table st k v e h1 with ⟨hk, he⟩ | ⟨hk, hv, he⟩
    · rw [he]
      exact paramStep_unrecognised table st2 k v hk
    · rw [he]
      exact paramStep_hacount_bad table st2 k v hk hv

/-- The loops on a mapping and on the mapping after `setAuth` end with the
same config and the same local `haCount`, or with the same error. -/
theorem paramLoop_setAuth (table : Char → Char) (w : String) :
    ∀ (params : List (String × String)) (st st2 : ParamState),
      st.cfg = st2.cfg → st.haCount = st2.haCount →
      (∃ a b, paramLoop table params st = .ok a ∧
        paramLoop table (setAuth table w params) st2 = .ok b ∧
        a.cfg = b.cfg ∧ a.haCount = b.haCount) ∨
      (∃ e, paramLoop table params st = .error e ∧
        paramLoop table (setAuth table w params) st2 = .error e) := by
  intro params
  induction params with
  | nil => intro st st2 hc hh; exact Or.inl ⟨st, st2, rfl, rfl, hc, hh⟩
  | cons kv rest ih =>
    intro st st2 hc hh
    obtain ⟨k, v⟩ := kv
    rw [setAuth_cons]
    by_cases hk : ToLower table k = "restauthenabled"
    · simp only [hk, if_true, paramLoop, paramStep_auth table _ k _ hk]
      exact ih _ _ hc hh
    · simp only [hk, if_false, paramLoop]
      rcases paramStep_sim table st st2 k v hc hh with ⟨a, b, ha, hb, hc1, hh1⟩ | ⟨e, h1, h2⟩
      · simp only [ha, hb]
        exact ih a b hc1 hh1
      · exact Or.inr ⟨e, by simp only [h1], by simp only [h2]⟩

/-- The code after the loop reads the locals `cfg`, `haCount` and
`authEnabled` only. -/
theorem finish_congr (a b : ParamState) (kubeclient : Option Client)
    (hc : a.cfg = b.cfg) (hh : a.haCount = b.haCount) (ha : a.authEnabled = b.authEnabled) :
    finishParameters a kubeclient = finishParameters b kubeclient := by
  unfold finishParameters
  rw [hc, hh, ha]

/-- C20: authentication is enabled only by a value that lower-cases to `true`.
A mapping whose `restauthenabled` value does not lower-case to `true` (`yes`,
`1`, `ture` and the empty string are such values) resolves exactly as it does
with `restauthenabled=false`, and a config it resolves to has user, user key,
secret name, secret namespace and secret value empty; when `restauthenabled`
is absent or lower-cases to `true`, the config holds the supplied `restuser`. -/
theorem C20_auth_only_true (table : Char → Char) (params : List (String × String))
    (kubeclient : Option Client) :
    (∀ v, supplied table "restauthenabled" params = some v → ToLower table v ≠ "true" →
      parseClassParameters table params kubeclient =
        parseClassParameters table (setAuth table "false" params) kubeclient ∧
      ∀ cfg, parseClassParameters table params kubeclient = .ok cfg →
        cfg.user = "" ∧ cfg.userKey = "" ∧ cfg.secretName = "" ∧ cfg.secretNamespace = "" ∧
        cfg.secretValue = "") ∧
    (authOn table params → ∀ cfg, parseClassParameters table params kubeclient = .ok cfg →
      cfg.user = (supplied table "restuser" params).getD "") ∧
    (ToLower table "yes" ≠ "true" ∧ ToLower table "1" ≠ "true" ∧
      ToLower table "ture" ≠ "true" ∧ ToLower table "" ≠ "true") := by
  refine ⟨?_, ?_, ?_⟩
  · intro v hv hnt
    have hoff : ∀ st, paramLoop table params {} = .ok st → st.authEnabled = false := by
      intro st hst
      obtain ⟨-, -, -, -, -, h6, -⟩ := paramLoop_ok table params st hst
      rw [h6, hv]
      simp [hnt]
    constructor
    · unfold parseClassParameters
      rcases paramLoop_setAuth table "false" params {} {} rfl rfl with
        ⟨a, b, ha, hb, hc, hh⟩ | ⟨e, h1, h2⟩
      · simp only [ha, hb]
        apply finish_congr a b kubeclient hc hh
        rw [hoff a ha]
        obtain ⟨-, -, -, -, -, h6, -⟩ :=
          paramLoop_ok table (setAuth table "false" params) b hb
        rw [h6, supplied_setAuth, hv]
        simp [toLower_false]
      · simp only [h1, h2]
    · intro cfg hcfg
      obtain ⟨st, hst, hfin⟩ := loop_of_parse_ok table params kubeclient cfg hcfg
      have ha := hoff st hst
      have hempty : len "" = 0 := (len_eq_zero_iff _).2 rfl
      unfold finishParameters at hfin
      split_ifs at hfin with hu
      simp only [ha, clearCredentials, Bool.not_false, if_true, hempty, ne_eq,
        not_true_eq_false, or_self, if_false, Except.ok.injEq] at hfin
      subst hfin
      exact ⟨rfl, rfl, rfl, rfl, rfl⟩
  · intro hauth cfg hcfg
    obtain ⟨st, hst, hfin⟩ := loop_of_parse_ok table params kubeclient cfg hcfg
    obtain ⟨-, h2, -⟩ := paramLoop_ok table params st hst
    have ha := authEnabled_of_authOn table params st hst hauth
    have hurl := (finish_ok st kubeclient cfg hfin).1
    obtain ⟨-, hn2, -⟩ := normaliseHaCount_fields st.haCount st.cfg
    rw [finish_auth_on st kubeclient ha hurl] at hfin
    rw [← h2, ← hn2]
    split_ifs at hfin
    · split at hfin
      · simp only [Except.ok.injEq] at hfin
        rw [← hfin]
      · cases hfin
    · simp only [Except.ok.injEq] at hfin
      rw [← hfin]
  · refine ⟨?_, ?_, ?_, ?_⟩
    · have h : ToLower table "yes" = "yes" := rfl
      rw [h]; decide
    · have h : ToLower table "1" = "1" := rfl
      rw [h]; decide
    · have h : ToLower table "ture" = "ture" := rfl
      rw [h]; decide
    · have h : ToLower table "" = "" := rfl
      rw [h]; decide

/-- Witness of C20: `restauthenabled=ture` next to a user and an inline key
resolves as `restauthenabled=false` does, without the credentials. -/
theorem C20_auth_only_true_witness :
    parseClassParameters id
      [("resturl", "http://heketi:8080"), ("restuser", "admin"), ("restuserkey", "pw"),
       ("restauthenabled", "ture")] none =
    parseClassParameters id
      (setAuth id "false"
        [("resturl", "http://heketi:8080"), ("restuser", "admin"), ("restuserkey", "pw"),
         ("restauthenabled", "ture")]) none ∧
    parseClassParameters id
      [("resturl", "http://heketi:8080"), ("restuser", "admin"), ("restuserkey", "pw"),
       ("restauthenabled", "ture")] none = .ok { url := "http://heketi:8080" } :=
  ⟨((C20_auth_only_true id
      [("resturl", "http://heketi:8080"), ("restuser", "admin"), ("restuserkey", "pw"),
       ("restauthenabled", "ture")] none).1 "ture" rfl (by decide)).1, rfl⟩

end GlusterBlock
